import Mathlib

set_option maxRecDepth 10000

/-!
Verification development for the bike-share NL→SQL translation pipeline
(`queryGenerator.ts`, `semanticMapper.ts`).  The TypeScript sources are
shallowly embedded below: pure string/array manipulation becomes Lean
functions over `String`/`List`, the JS `Date` constructor and
`toISOString` are modeled by a proleptic-Gregorian civil-date model
(assuming the process runs in the UTC timezone, so local time = UTC),
and the JS regular expressions used by the source are modeled by
dedicated first-match scanners with the same semantics on the patterns
in question.  The advisory LLM analysis is an external input and is
modeled as an explicit parameter (`LLMAnalysis`), as is the current
date (`now`) used by the "last month" branch.
-/

namespace BikeShare

/-! ## String primitives (JS semantics, kernel-computable) -/

/-- JS `String.prototype.toLowerCase` (ASCII range, which is all the source uses). -/
def jsLower (s : String) : String := String.mk (s.data.map Char.toLower)

/-- Bool test: `needle` is a prefix of `hay` (character lists). -/
def prefixCh : List Char → List Char → Bool
  | [], _ => true
  | _ :: _, [] => false
  | a :: as, b :: bs => a == b && prefixCh as bs

/-- Bool test: `needle` occurs as a contiguous substring of `hay`. -/
def infixCh (needle : List Char) : List Char → Bool
  | [] => needle.isEmpty
  | b :: bs => prefixCh needle (b :: bs) || infixCh needle bs

/-- JS `s.includes(sub)`. -/
def sIncludes (s sub : String) : Bool := infixCh sub.data s.data

/-- JS `s.startsWith(pre)`. -/
def sStartsWith (s pre : String) : Bool := prefixCh pre.data s.data

/-- JS `s.substring(n)` (all source uses are ASCII, so dropping `n` characters
agrees with dropping `n` UTF-16 code units). -/
def sDrop (s : String) (n : Nat) : String := String.mk (s.data.drop n)

/-- Whitespace class of the JS regexes (`\s`), restricted to the characters
that occur in the questions handled here. -/
def isSpaceCh (c : Char) : Bool := c == ' ' || c == '\t' || c == '\n' || c == '\r'

/-- Word-character class of the JS regexes (`\w` = `[A-Za-z0-9_]`). -/
def isWordCh (c : Char) : Bool := c.isAlphanum || c == '_'

/-- Digit class (`\d`). -/
def isDigitCh (c : Char) : Bool := c.isDigit

/-- Split at every single separator character (fields may be empty). -/
def splitSingle (p : Char → Bool) : List Char → List (List Char)
  | [] => [[]]
  | c :: rest =>
    if p c then [] :: splitSingle p rest
    else
      match splitSingle p rest with
      | t :: ts => (c :: t) :: ts
      | [] => [[c]]

/-- Drop empty fields that are strictly in the middle of the field list
(turns single-separator splitting into separator-run splitting). -/
def collapseMidAux : List (List Char) → List (List Char)
  | [] => []
  | [x] => [x]
  | x :: rest =>
    if x.isEmpty then collapseMidAux rest else x :: collapseMidAux rest

/-- Keep the first field unconditionally, then collapse interior empties. -/
def collapseMid : List (List Char) → List (List Char)
  | [] => []
  | [x] => [x]
  | x :: rest => x :: collapseMidAux rest

/-- JS `s.split(re)` for a one-character-class regex with a `+` quantifier
(such as `/\s+/` or `/[_\s]+/`): separator runs delimit fields; leading or
trailing runs produce empty fields, interior runs never do. -/
def splitRuns (p : Char → Bool) (cs : List Char) : List String :=
  (collapseMid (splitSingle p cs)).map String.mk

/-- Decimal digits with explicit fuel (structural, so it computes in the
kernel); correct whenever `n < 10 ^ fuel`. -/
def natToDigitsAux : Nat → Nat → List Char → List Char
  | 0, _, acc => acc
  | fuel + 1, n, acc =>
    if n < 10 then Char.ofNat (48 + n) :: acc
    else natToDigitsAux fuel (n / 10) (Char.ofNat (48 + n % 10) :: acc)

/-- Decimal digits of a natural number, most significant first. -/
def natToDigits (n : Nat) : List Char := natToDigitsAux (n + 1) n []

/-- Decimal rendering of a natural number (JS template-literal interpolation
of a nonnegative integer, and `parseInt`'s inverse). -/
def natToString (n : Nat) : String := String.mk (natToDigits n)

/-- Value of a list of decimal digit characters (JS `parseInt` on an
all-digit string; leading zeros are fine). -/
def natOfDigits (ds : List Char) : Nat :=
  ds.foldl (fun a c => a * 10 + (c.toNat - 48)) 0

/-- Left-pad the decimal rendering of `n` with zeros to width `w`
(the field widths of `Date.prototype.toISOString`). -/
def padZeros (w : Nat) (n : Nat) : String :=
  let ds := natToDigits n
  String.mk (List.replicate (w - ds.length) '0' ++ ds)

/-- Join a list of strings with a separator (JS `Array.prototype.join`). -/
def joinSep (sep : String) : List String → String
  | [] => ""
  | [s] => s
  | s :: rest => s ++ sep ++ joinSep sep rest

/-! ## First-match scanners for the JS regexes of the source

Each scanner `findFirst p cs` tries the pattern parser `p` at every start
position of `cs` from left to right and returns the first success, which is
exactly the leftmost-match rule of JS `String.prototype.match` for the
patterns below (none of them needs backtracking beyond what the parsers
implement, as argued in the comments). -/

/-- Try a position parser at every suffix, leftmost first. -/
def findFirst (p : List Char → Option α) : List Char → Option α
  | [] => p []
  | c :: rest =>
    match p (c :: rest) with
    | some r => some r
    | none => findFirst p rest

/-- Variant of `findFirst` that also passes the character just before the
current position (needed for a leading `\b` word boundary). -/
def findFirstPrev (p : Option Char → List Char → Option α) :
    Option Char → List Char → Option α
  | prev, [] => p prev []
  | prev, c :: rest =>
    match p prev (c :: rest) with
    | some r => some r
    | none => findFirstPrev p (some c) rest

/-- Consume a literal string, returning the rest on success. -/
def dropLit : List Char → List Char → Option (List Char)
  | [], cs => some cs
  | _ :: _, [] => none
  | a :: as, c :: cs => if a == c then dropLit as cs else none

/-- Consume `\s+` (at least one whitespace character, maximal run; the run is
maximal without loss of generality because whatever follows it in the
patterns below cannot match a whitespace character). -/
def dropSpaces1 : List Char → Option (List Char)
  | c :: rest => if isSpaceCh c then some (rest.dropWhile isSpaceCh) else none
  | [] => none

/-- Maximal `\w+` run and the remainder (the run is maximal without loss of
generality: in every pattern below the `\w+` group is followed by a
non-word character). -/
def spanWord (cs : List Char) : List Char × List Char :=
  (cs.takeWhile isWordCh, cs.dropWhile isWordCh)

/-- Maximal `\d+` run and the remainder. -/
def spanDigits (cs : List Char) : List Char × List Char :=
  (cs.takeWhile isDigitCh, cs.dropWhile isDigitCh)

/-- Position parser for `/(\w+) (\d{4})/`: a maximal word run, a single
space, then four digit characters (what follows the fourth digit is
unconstrained).  Returns (word, parseInt of the four digits). -/
def monthYearAt (cs : List Char) : Option (String × Nat) :=
  let w := cs.takeWhile isWordCh
  let r := cs.dropWhile isWordCh
  if w.isEmpty then none
  else
    match r with
    | ' ' :: d1 :: d2 :: d3 :: d4 :: _ =>
      if isDigitCh d1 && isDigitCh d2 && isDigitCh d3 && isDigitCh d4 then
        some (String.mk w, natOfDigits [d1, d2, d3, d4])
      else none
    | _ => none

/-- First match of `/(\w+) (\d{4})/` (source line 113). -/
def monthYearMatch (lowerText : String) : Option (String × Nat) :=
  findFirst monthYearAt lowerText.data

/-- First match of `/first week of (\w+) (\d{4})/` (source line 52). -/
def firstWeekMatch (lowerText : String) : Option (String × Nat) :=
  findFirst
    (fun cs =>
      match dropLit "first week of ".data cs with
      | some rest => monthYearAt rest
      | none => none)
    lowerText.data

/-- Result of the `between … and …, year` scanner: month word and day for
both endpoints, plus the year. -/
structure BetweenMatch where
  startMonth : String
  startDay : Nat
  endMonth : String
  endDay : Nat
  year : Nat
deriving Repr, DecidableEq

/-- Optional `\s*,?\s*` separator followed by `\d{4}`. -/
def sepThenYear (cs : List Char) : Option Nat :=
  let t1 := cs.dropWhile isSpaceCh
  let t2 := match t1 with
    | ',' :: r => r
    | _ => t1
  let t3 := t2.dropWhile isSpaceCh
  match t3 with
  | d1 :: d2 :: d3 :: d4 :: _ =>
    if isDigitCh d1 && isDigitCh d2 && isDigitCh d3 && isDigitCh d4 then
      some (natOfDigits [d1, d2, d3, d4])
    else none
  | _ => none

/-- Position parser for
`/between\s+(\w+\s+\d{1,2})\s+and\s+(\w+\s+\d{1,2})\s*,?\s*(\d{4})/i`
(source line 77), applied to already-lowercased text.  The only place in
this pattern where regex backtracking matters is the second `\d{1,2}`
directly followed by the optional separators and `\d{4}`: a maximal digit
run of length 1–2 is taken whole, lengths 3–4 cannot match at this
position, length 5 splits 1+4 and length ≥ 6 splits 2+4 (greedy day first). -/
def betweenAt (cs : List Char) : Option BetweenMatch := Id.run do
  let some r1 := dropLit "between".data cs | return none
  let some r2 := dropSpaces1 r1 | return none
  let (w1, r3) := spanWord r2
  if w1.isEmpty then return none
  let some r4 := dropSpaces1 r3 | return none
  let (ds1, r5) := spanDigits r4
  if ds1.isEmpty || ds1.length > 2 then return none
  let some r6 := dropSpaces1 r5 | return none
  let some r7 := dropLit "and".data r6 | return none
  let some r8 := dropSpaces1 r7 | return none
  let (w2, r9) := spanWord r8
  if w2.isEmpty then return none
  let some r10 := dropSpaces1 r9 | return none
  let (ds2, r11) := spanDigits r10
  if ds2.isEmpty then return none
  if ds2.length ≤ 2 then
    let some y := sepThenYear r11 | return none
    return some ⟨String.mk w1, natOfDigits ds1, String.mk w2, natOfDigits ds2, y⟩
  else if ds2.length = 5 then
    return some ⟨String.mk w1, natOfDigits ds1, String.mk w2,
      natOfDigits (ds2.take 1), natOfDigits (ds2.drop 1)⟩
  else if ds2.length ≥ 6 then
    return some ⟨String.mk w1, natOfDigits ds1, String.mk w2,
      natOfDigits (ds2.take 2), natOfDigits ((ds2.drop 2).take 4)⟩
  else return none

/-- First match of the `between` pattern. -/
def betweenMatch (lowerText : String) : Option BetweenMatch :=
  findFirst betweenAt lowerText.data

/-- First match of `/top\s+(\d+)/` (source line 1244). -/
def topMatch (lowerText : String) : Option Nat :=
  findFirst
    (fun cs => Id.run do
      let some r1 := dropLit "top".data cs | return none
      let some r2 := dropSpaces1 r1 | return none
      let (ds, _) := spanDigits r2
      if ds.isEmpty then return none
      return some (natOfDigits ds))
    lowerText.data

/-- First match of `/(under|over)\s+(\d+)/i` on lowercased text (source
lines 287 and 575); returns the matched keyword and the number. -/
def ageMatch (lowerText : String) : Option (String × Nat) :=
  findFirst
    (fun cs => Id.run do
      let kw :=
        match dropLit "under".data cs with
        | some r => some ("under", r)
        | none =>
          match dropLit "over".data cs with
          | some r => some ("over", r)
          | none => none
      let some (k, r1) := kw | return none
      let some r2 := dropSpaces1 r1 | return none
      let (ds, _) := spanDigits r2
      if ds.isEmpty then return none
      return some (k, natOfDigits ds))
    lowerText.data

/-- First match of `/(?:precipitation_mm|rain)\s*(>=|<=|=|>|<)\s*(\d+)/i`
(source line 543); returns the operator and the number. -/
def numericCmpMatch (lowerText : String) : Option (String × Nat) :=
  findFirst
    (fun cs => Id.run do
      let rest :=
        match dropLit "precipitation_mm".data cs with
        | some r => some r
        | none => dropLit "rain".data cs
      let some r1 := rest | return none
      let r2 := r1.dropWhile isSpaceCh
      let op :=
        match dropLit ">=".data r2 with
        | some r => some (">=", r)
        | none =>
          match dropLit "<=".data r2 with
          | some r => some ("<=", r)
          | none =>
            match dropLit "=".data r2 with
            | some r => some ("=", r)
            | none =>
              match dropLit ">".data r2 with
              | some r => some (">", r)
              | none =>
                match dropLit "<".data r2 with
                | some r => some ("<", r)
                | none => none
      let some (o, r3) := op | return none
      let r4 := r3.dropWhile isSpaceCh
      let (ds, _) := spanDigits r4
      if ds.isEmpty then return none
      return some (o, natOfDigits ds))
    lowerText.data

/-- First match of `/>(\d+)°?c?/i` (source line 561): `>` then digits. -/
def tempGtMatch (lowerText : String) : Option Nat :=
  findFirst
    (fun cs =>
      match cs with
      | '>' :: rest =>
        let (ds, _) := spanDigits rest
        if ds.isEmpty then none else some (natOfDigits ds)
      | _ => none)
    lowerText.data

/-- First match of `/<(\d+)°?c?/i` (source line 566): `<` then digits. -/
def tempLtMatch (lowerText : String) : Option Nat :=
  findFirst
    (fun cs =>
      match cs with
      | '<' :: rest =>
        let (ds, _) := spanDigits rest
        if ds.isEmpty then none else some (natOfDigits ds)
      | _ => none)
    lowerText.data

/-- Alternatives of the grouping-dimension group, in source order
(source line 647); alternation tries them left to right. -/
def byDimAlternatives : List String :=
  ["station", "end station", "start station", "starts", "day", "date",
   "gender", "bike", "model", "distance", "trip distance"]

/-- Try the dimension alternatives in order at the current position. -/
def firstAlternative : List String → List Char → Option String
  | [], _ => none
  | a :: rest, cs =>
    match dropLit a.data cs with
    | some _ => some a
    | none => firstAlternative rest cs

/-- First match of
`/\bby\b\s+(?<dim>station|end station|start station|starts|day|date|gender|bike|model|distance|trip distance)/i`
(source line 647).  The `\b` after `by` is implied by the mandatory
whitespace; the `\b` before it requires the previous character (if any) to
be a non-word character. -/
def byDimensionMatch (lowerText : String) : Option String :=
  findFirstPrev
    (fun prev cs => Id.run do
      match prev with
      | some c => if isWordCh c then return none else pure ()
      | none => pure ()
      let some r1 := dropLit "by".data cs | return none
      let some r2 := dropSpaces1 r1 | return none
      firstAlternative byDimAlternatives r2)
    none lowerText.data

/-! ## Civil-date model of the JS `Date` (UTC)

The source builds `Date` values with local-time constructors and formats
them with `toISOString().split('T')[0]`; the model assumes the process
timezone is UTC, so a `Date` is just a proleptic-Gregorian calendar day.
`daysFromCivil`/`civilFromDays` are the standard civil-from-days /
days-from-civil algorithms (shifted March-based years, 400-year eras). -/

/-- A calendar day; `month` is 0-based (as in JS), `day` is 1-based. -/
structure Date where
  year : Int
  month : Nat
  day : Nat
deriving Repr, DecidableEq

/-- Gregorian leap-year rule (`%` is Euclidean remainder, which agrees
with the 400-year periodicity of the rule on every integer year). -/
def isLeap (y : Int) : Bool :=
  (y % 4 == 0 && !(y % 100 == 0)) || y % 400 == 0

/-- Number of days of 0-based month `m` in year `y`. -/
def daysInMonth (y : Int) (m : Nat) : Nat :=
  match m with
  | 1 => if isLeap y then 29 else 28
  | 3 => 30
  | 5 => 30
  | 8 => 30
  | 10 => 30
  | _ => 31

/-- March-shifted year of a calendar day (January and February belong to
the preceding shifted year). -/
def yShiftOf (dt : Date) : Int := if dt.month ≤ 1 then dt.year - 1 else dt.year

/-- March-based month index (March = 0, …, February = 11). -/
def mpOf (m : Nat) : Nat := if 2 ≤ m then m - 2 else m + 10

/-- Day of the shifted year (0-based). -/
def doyOf (dt : Date) : Nat := (153 * mpOf dt.month + 2) / 5 + (dt.day - 1)

/-- Day count for a nonnegative shifted year `n` (pure `Nat` arithmetic,
kernel-computable and `omega`-friendly). -/
def daysNonneg (n : Nat) (doy : Nat) : Int :=
  ((n / 400 * 146097 + (n - n / 400 * 400) * 365 + (n - n / 400 * 400) / 4 -
    (n - n / 400 * 400) / 100 + doy : Nat) : Int) - 719468

/-- Day count for a negative shifted year (floor division on `Int`). -/
def daysNeg (yS : Int) (doy : Nat) : Int :=
  yS.fdiv 400 * 146097 +
    (((yS - yS.fdiv 400 * 400).toNat * 365 + (yS - yS.fdiv 400 * 400).toNat / 4 -
      (yS - yS.fdiv 400 * 400).toNat / 100 + doy : Nat) : Int) - 719468

/-- Days since 1970-01-01 of a calendar day. -/
def daysFromCivil (dt : Date) : Int :=
  if 0 ≤ yShiftOf dt then daysNonneg (yShiftOf dt).toNat (doyOf dt)
  else daysNeg (yShiftOf dt) (doyOf dt)

/-- Calendar day of a days-since-1970 count (inverse of `daysFromCivil`). -/
def civilFromDays (z : Int) : Date :=
  let zS := z + 719468
  let era : Int := zS.fdiv 146097
  let doe : Nat := (zS - era * 146097).toNat
  let yoe : Nat := (doe - doe / 1460 + doe / 36524 - doe / 146096) / 365
  let yS : Int := era * 400 + yoe
  let doy : Nat := doe - (365 * yoe + yoe / 4 - yoe / 100)
  let mp : Nat := (5 * doy + 2) / 153
  let d : Nat := doy - (153 * mp + 2) / 5 + 1
  let m0 : Nat := if mp < 10 then mp + 2 else mp - 10
  ⟨if m0 ≤ 1 then yS + 1 else yS, m0, d⟩

/-- Shift a calendar day by `k` days (JS `getTime() + k·86400000` at UTC
midnight, reformatted as a date). -/
def addDays (dt : Date) (k : Int) : Date := civilFromDays (daysFromCivil dt + k)

/-- JS `new Date(y, m, d)` (UTC model): the two-digit-year rule maps
`0 ≤ y ≤ 99` to `1900 + y`, the month argument is floor-normalized into
the year, and an out-of-range day rolls through `civilFromDays`. -/
def mkDate (y m d : Int) : Date :=
  let yq : Int := if 0 ≤ y ∧ y ≤ 99 then y + 1900 else y
  let ym : Int := yq + m / 12
  let m0 : Nat := (m % 12).toNat
  if 1 ≤ d ∧ d ≤ (daysInMonth ym m0 : Int) then ⟨ym, m0, d.toNat⟩
  else civilFromDays (daysFromCivil ⟨ym, m0, 1⟩ + (d - 1))

/-- JS `toISOString().split('T')[0]` (valid for years 0–9999, which covers
every date the resolver can produce from a 4-digit year). -/
def toISODate (dt : Date) : String :=
  padZeros 4 dt.year.toNat ++ "-" ++ padZeros 2 (dt.month + 1) ++ "-" ++ padZeros 2 dt.day

/-! ## Date Phrase Resolver (source: `QueryGenerator.parseDateExpressions`) -/

/-- Resolved date interval, as the two ISO date strings the source returns. -/
structure DateRange where
  startDate : String
  endDate : String
deriving Repr, DecidableEq

/-- Month names used by `getMonthIndex` (source lines 148–151). -/
def monthsList : List String :=
  ["january", "february", "march", "april", "may", "june",
   "july", "august", "september", "october", "november", "december"]

/-- JS `Array.prototype.indexOf` over strings with a running index. -/
def indexOfAux (x : String) : List String → Int → Int
  | [], _ => -1
  | y :: ys, i => if y == x then i else indexOfAux x ys (i + 1)

/-- Source `getMonthIndex`: `months.indexOf(month.toLowerCase())`, `-1`
when absent. -/
def getMonthIndex (month : String) : Int :=
  indexOfAux (jsLower month) monthsList 0

/-- Source `getMonthNumber`: month-name (or 3-letter abbreviation) to
0-based month, defaulting to 0. -/
def getMonthNumber (monthName : String) : Nat :=
  let tbl : List (String × Nat) :=
    [("january", 0), ("jan", 0), ("february", 1), ("feb", 1),
     ("march", 2), ("mar", 2), ("april", 3), ("apr", 3), ("may", 4),
     ("june", 5), ("jun", 5), ("july", 6), ("jul", 6),
     ("august", 7), ("aug", 7), ("september", 8), ("sep", 8), ("sept", 8),
     ("october", 9), ("oct", 9), ("november", 10), ("nov", 10),
     ("december", 11), ("dec", 11)]
  match tbl.find? (fun e => e.1 == jsLower monthName) with
  | some e => e.2
  | none => 0

/-- The "last month" branch (source lines 133–142): a calendar-closed
interval `[first day of previous month, last day of previous month]`
relative to `now` — the one branch that is not half-open. -/
def lastMonthRange (now : Date) : DateRange :=
  let lastMonth := mkDate now.year ((now.month : Int) - 1) 1
  let endOfLastMonth := mkDate now.year (now.month : Int) 0
  ⟨toISODate lastMonth, toISODate endOfLastMonth⟩

/-- Source `parseDateExpressions`: strict priority order — "first week of
M Y", then "between M D and M D, Y", then bare "M Y", then "last month";
a branch whose month name is invalid falls through to the next.  (The
source's "fallback guard" at lines 443–449 re-invokes this function with
the same argument and is therefore a no-op, which the model omits.) -/
def parseDateExpressions (now : Date) (text : String) : Option DateRange :=
  if text == "" then none
  else
    let lowerText := jsLower text
    let fw : Option DateRange :=
      match firstWeekMatch lowerText with
      | some (m, y) =>
        let mi := getMonthIndex m
        if mi ≠ -1 then
          let startDate := mkDate (y : Int) mi 1
          let endDate := addDays startDate 7
          some ⟨toISODate startDate, toISODate endDate⟩
        else none
      | none => none
    match fw with
    | some r => some r
    | none =>
      let bt : Option DateRange :=
        match betweenMatch lowerText with
        | some bm =>
          let smi := getMonthIndex bm.startMonth
          let emi := getMonthIndex bm.endMonth
          if smi ≠ -1 ∧ emi ≠ -1 then
            let startDate := mkDate (bm.year : Int) smi (bm.startDay : Int)
            let endDate := mkDate (bm.year : Int) emi ((bm.endDay : Int) + 1)
            some ⟨toISODate startDate, toISODate endDate⟩
          else none
        | none => none
      match bt with
      | some r => some r
      | none =>
        let my : Option DateRange :=
          match monthYearMatch lowerText with
          | some (m, y) =>
            let mi := getMonthIndex m
            if mi ≠ -1 then
              some ⟨toISODate (mkDate (y : Int) mi 1),
                    toISODate (mkDate (y : Int) (mi + 1) 1)⟩
            else none
          | none => none
        match my with
        | some r => some r
        | none =>
          if sIncludes lowerText "last month" then some (lastMonthRange now)
          else none

/-! ## Data model -/

/-- Value bound to a filter predicate (JS `any`): a string, a number, a
list (for `IN`), or `null` for flag operators. -/
inductive FilterValue where
  | str : String → FilterValue
  | int : Int → FilterValue
  | list : List String → FilterValue
  | null : FilterValue
deriving Repr, DecidableEq

/-- A filter predicate `{column, operator, value}`. -/
structure Filter where
  column : String
  operator : String
  value : FilterValue
deriving Repr, DecidableEq

/-- An aggregation request `{function, column, alias}` (the source's
`alias` field is named `aliasName` here because `alias` is a Lean keyword). -/
structure Aggregation where
  function : String
  column : String
  aliasName : String
deriving Repr, DecidableEq

/-- A scored column mapping (source `ColumnMapping`). -/
structure Column where
  tableName : String
  columnName : String
  dataType : String
  score : Int
deriving Repr, DecidableEq

/-- A scored table mapping (source `TableMapping`). -/
structure TableMapping where
  tableName : String
  score : Int
deriving Repr, DecidableEq

/-- A schema-cache row as fetched from `information_schema.columns`,
optionally annotated with sampled distinct values. -/
structure SchemaColumn where
  table_name : String
  column_name : String
  data_type : String
  sampled_values : Option (List String)
deriving Repr, DecidableEq

/-- The parts of the advisory LLM analysis that the deterministic pipeline
actually reads: table/column boost suggestions, the truthiness of
`filters.weatherFilter`, and `groupingDimensions`.  This is an external
input of the pipeline (produced by the slot extractor or its keyword
fallback). -/
structure LLMAnalysis where
  suggestedTables : List String
  suggestedColumns : List String
  weatherFilterFlag : Bool
  groupingDimensions : List String
deriving Repr, DecidableEq

/-! ## Aggregation Assembler (source: `QueryGenerator.parseAggregations`)

The assembler is one `if` (the duration branch, which appends
independently) followed by a first-match-wins `else if` cascade.  Each
cascade condition is its own definition so that theorems can switch
branches on and off by hypothesis. -/

/-- Speed vocabulary (source lines 377–378 and `isSpeedQuery`). -/
def speedVocab (tl : String) : Bool :=
  sIncludes tl "speed" || sIncludes tl "pace" || sIncludes tl "km/h" ||
  sIncludes tl "kph" || sIncludes tl "mph" || sIncludes tl "average speed"

/-- Source `isSpeedQuery`. -/
def isSpeedQuery (userText : String) : Bool := speedVocab (jsLower userText)

/-- Source `isBikeRelatedQuery` (lines 1303–1307; `&&` binds tighter than
`||` in JS, exactly as written here). -/
def isBikeRelatedQuery (userText : String) : Bool :=
  let tl := jsLower userText
  (sIncludes tl "bikes" &&
    (sIncludes tl "purchased" || sIncludes tl "bought" ||
     sIncludes tl "acquisition" || sIncludes tl "show bikes")) ||
  (sIncludes tl "bike" &&
    (sIncludes tl "where" || sIncludes tl "currently" || sIncludes tl "docked"))

/-- Priority-0 condition (line 164): "average" plus ride-time/journey
vocabulary (the source tests `'ride time'` twice; one copy suffices). -/
def aggCondDuration (tl : String) : Bool :=
  sIncludes tl "average" && (sIncludes tl "ride time" || sIncludes tl "journey")

/-- Priority-1 condition (line 174): distance vocabulary. -/
def aggCondDistance (tl : String) : Bool :=
  sIncludes tl "kilometres" || sIncludes tl "kilometers" || sIncludes tl "distance" ||
  (sIncludes tl "how many" && (sIncludes tl "kilometres" || sIncludes tl "kilometers"))

/-- Priority-2 condition (line 211): ranking vocabulary. -/
def aggCondRanking (tl : String) : Bool :=
  sIncludes tl "most" || sIncludes tl "highest" || sIncludes tl "busiest" ||
  (sIncludes tl "which" && sIncludes tl "departures") ||
  (sIncludes tl "which" && sIncludes tl "station") ||
  (sIncludes tl "which" && sIncludes tl "dock") ||
  (sIncludes tl "which" && sIncludes tl "docking")

/-- Priority-3 condition (line 225): generic count vocabulary. -/
def aggCondHowMany (tl : String) : Bool :=
  sIncludes tl "how many" || sIncludes tl "count"

/-- Condition at line 234: "total rides" phrasings. -/
def aggCondTotalRides (tl : String) : Bool :=
  sIncludes tl "total rides" || sIncludes tl "number of departures" ||
  (sIncludes tl "rides" && sIncludes tl "total")

/-- Condition at line 245: "daily totals". -/
def aggCondDailyTotals (tl : String) : Bool :=
  sIncludes tl "daily totals" || sIncludes tl "daily totals of"

/-- Condition at line 255: "top N by average". -/
def aggCondTopByAvg (tl : String) : Bool :=
  sIncludes tl "top" && sIncludes tl "by" && (sIncludes tl "average" || sIncludes tl "avg")

/-- Condition at line 283: age vocabulary (note that `"average"` contains
the substring `"age"`, so this branch also captures many average-phrased
questions that reach it). -/
def aggCondAge (tl : String) : Bool :=
  sIncludes tl "under" || sIncludes tl "over" || sIncludes tl "age"

/-- Condition at line 306: weekend departures. -/
def aggCondWeekendDep (tl : String) : Bool :=
  sIncludes tl "departures on weekends" || sIncludes tl "weekend departures"

/-- Condition at line 316: "top 3 … average trip distance". -/
def aggCondTop3Dist (tl : String) : Bool :=
  sIncludes tl "top 3" && sIncludes tl "average trip distance"

/-- Condition at line 327: most arrivals. -/
def aggCondMostArrivals (tl : String) : Bool :=
  sIncludes tl "most arrivals" || sIncludes tl "destination station had the most"

/-- Condition at line 337: distance by end station. -/
def aggCondDistByEnd (tl : String) : Bool :=
  sIncludes tl "sum distance by end station" || sIncludes tl "distance by end station"

/-- Condition at line 347: busiest station by starts. -/
def aggCondBusiestByStarts (tl : String) : Bool :=
  sIncludes tl "busiest station by starts" || sIncludes tl "station by starts"

/-- Condition at line 357: rides last month. -/
def aggCondRidesLastMonth (tl : String) : Bool :=
  sIncludes tl "total rides last month" || sIncludes tl "rides last month"

/-- Condition at line 367: rainy weekdays. -/
def aggCondRainyWeekdays (tl : String) : Bool :=
  sIncludes tl "rainy weekdays" || sIncludes tl "rainy weekday"

/-- Condition at line 389: bike purchase vocabulary (emits nothing). -/
def aggCondPurchase (tl : String) : Bool :=
  sIncludes tl "purchase" || sIncludes tl "purchased" || sIncludes tl "bought" ||
  sIncludes tl "acquisition" || sIncludes tl "show bikes"

/-- Body of the distance branch (lines 176–207). -/
def distanceAggs (safeColumns : List Column) : List Aggregation :=
  let distanceColumns := safeColumns.filter (fun col =>
    sIncludes (jsLower col.columnName) "distance" ||
    sIncludes (jsLower col.columnName) "km" ||
    sIncludes (jsLower col.columnName) "meters")
  match distanceColumns with
  | [] => []
  | dc :: _ =>
    if sIncludes (jsLower dc.columnName) "km" then
      [⟨"SUM", dc.columnName, "total_kilometres"⟩]
    else if sIncludes (jsLower dc.columnName) "meters" then
      [⟨"SUM", dc.columnName, "total_kilometres"⟩]
    else [⟨"SUM", dc.columnName, "total_distance"⟩]

/-- Body of the "top N by average" branch (lines 256–279). -/
def topByAvgAggs (tl : String) : List Aggregation :=
  if sIncludes tl "distance" || sIncludes tl "trip distance" then
    [⟨"AVG", "trip_distance_km", "average_distance"⟩]
  else if sIncludes tl "duration" || sIncludes tl "ride time" then
    [⟨"AVG", "duration_calculated", "average_duration"⟩]
  else [⟨"AVG", "trip_distance_km", "average_value"⟩]

/-- Body of the fallback generic-average branch (lines 396–427). -/
def genericAvgAggs (safeColumns : List Column) : List Aggregation :=
  let numericColumns := safeColumns.filter (fun c =>
    sIncludes c.dataType "numeric" || sIncludes c.dataType "integer" ||
    sIncludes c.dataType "double")
  match numericColumns with
  | [] => []
  | _ :: _ =>
    let meaningfulColumns := numericColumns.filter (fun c =>
      !(sIncludes c.columnName "id") && !(sIncludes c.columnName "_id") &&
      c.columnName ≠ "trip_id" && c.columnName ≠ "bike_id" && c.columnName ≠ "station_id")
    match meaningfulColumns with
    | m :: _ => [⟨"AVG", m.columnName, "average_value"⟩]
    | [] => [⟨"COUNT", "*", "total_count"⟩]

/-- Source `parseAggregations`.  The speed branch's early `return` is
behaviorally the fall-through of the cascade's last branch, since nothing
follows the cascade. -/
def parseAggregations (text : String) (columns : List Column) : List Aggregation :=
  let safeColumns := columns.filter (fun c => c.columnName ≠ "" && c.dataType ≠ "")
  let tl := jsLower text
  let base : List Aggregation :=
    if aggCondDuration tl then [⟨"AVG", "duration_calculated", "average_ride_time_minutes"⟩]
    else []
  let chain : List Aggregation :=
    if aggCondDistance tl then distanceAggs safeColumns
    else if aggCondRanking tl then [⟨"COUNT", "*", "departure_count"⟩]
    else if aggCondHowMany tl then [⟨"COUNT", "*", "total_count"⟩]
    else if aggCondTotalRides tl then [⟨"COUNT", "*", "total_rides"⟩]
    else if aggCondDailyTotals tl then [⟨"COUNT", "*", "ride_count"⟩]
    else if aggCondTopByAvg tl then topByAvgAggs tl
    else if aggCondAge tl then []
    else if aggCondWeekendDep tl then [⟨"COUNT", "*", "weekend_departures"⟩]
    else if aggCondTop3Dist tl then [⟨"AVG", "trip_distance_km", "average_distance"⟩]
    else if aggCondMostArrivals tl then [⟨"COUNT", "*", "arrival_count"⟩]
    else if aggCondDistByEnd tl then [⟨"SUM", "trip_distance_km", "total_kilometres"⟩]
    else if aggCondBusiestByStarts tl then [⟨"COUNT", "*", "departure_count"⟩]
    else if aggCondRidesLastMonth tl then [⟨"COUNT", "*", "total_rides"⟩]
    else if aggCondRainyWeekdays tl then [⟨"SUM", "trip_distance_km", "total_kilometres"⟩]
    else if speedVocab tl then [⟨"SPEED", "speed_calculated", "average_speed_kmh"⟩]
    else if aggCondPurchase tl then []
    else if sIncludes tl "average" || sIncludes tl "avg" then genericAvgAggs safeColumns
    else []
  base ++ chain

/-! ## Filter Assembler (source: `QueryGenerator.parseFilters`)

Each rule of the assembler is its own definition; the assembler
concatenates their outputs in source order, applies the last-day-of-month
rewrite, and finally appends the grouping-dimension carriers. -/

/-- Trip-query vocabulary of the date-column override (line 456). -/
def tripQueryTokens (tl : String) : Bool :=
  sIncludes tl "departures" || sIncludes tl "journeys" || sIncludes tl "trips" ||
  sIncludes tl "ride" || sIncludes tl "docking" || sIncludes tl "women" ||
  sIncludes tl "female" || sIncludes tl "which" || sIncludes tl "most"

/-- Weather-query condition of the date-column choice (line 468). -/
def weatherDateCond (tl : String) : Bool :=
  sIncludes tl "weather" && !(sIncludes tl "women") && !(sIncludes tl "female") &&
  !(sIncludes tl "ride")

/-- The date column fabricated by the trip-query override when no mapped
trips start column exists (line 464; the source object has no score). -/
def forcedStartedAt : Column := ⟨"trips", "started_at", "timestamp without time zone", 0⟩

/-- Date-column choice, override stage (lines 455–472): trip queries force
the trips start-time column (fabricating it if unmapped), weather queries
prefer the weather-date column. -/
def dateColumnOverride (tl : String) (safeColumns : List Column) : Option Column :=
  if tripQueryTokens tl then
    match safeColumns.find? (fun col =>
      sIncludes col.columnName "started" && col.tableName == "trips") with
    | some c => some c
    | none => some forcedStartedAt
  else if weatherDateCond tl then
    safeColumns.find? (fun col =>
      sIncludes col.columnName "weather" && col.tableName == "daily_weather")
  else none

/-- Date-column choice, primary-table stage (lines 475–480). -/
def dateColumnPrimary (tl : String) (safeColumns : List Column) (primaryTable : String) :
    Option Column :=
  match dateColumnOverride tl safeColumns with
  | some c => some c
  | none =>
    safeColumns.find? (fun col =>
      (sIncludes col.dataType "timestamp" || sIncludes col.dataType "date") &&
      col.tableName == primaryTable)

/-- Date-column choice (lines 453–487), last-resort stage: any timestamp
or date column anywhere. -/
def dateColumnOf (tl : String) (safeColumns : List Column) (primaryTable : String) :
    Option Column :=
  match dateColumnPrimary tl safeColumns primaryTable with
  | some c => some c
  | none =>
    safeColumns.find? (fun col =>
      sIncludes col.dataType "timestamp" || sIncludes col.dataType "date")

/-- Temporal rule (lines 443–495): resolve the date phrase and emit the
half-open pair `>= start`, `< end` on the chosen date column. -/
def dateFiltersOf (now : Date) (text tl : String) (safeColumns : List Column)
    (primaryTable : String) : List Filter :=
  match parseDateExpressions now text with
  | none => []
  | some di =>
    match dateColumnOf tl safeColumns primaryTable with
    | none => []
    | some dc =>
      [⟨dc.columnName, ">=", .str di.startDate⟩, ⟨dc.columnName, "<", .str di.endDate⟩]

/-- Gender-column predicate of the women branch (lines 499–503): a
character-typed gender column of the trips table. -/
def isWomenGenderCol (col : Column) : Bool :=
  sIncludes (jsLower col.columnName) "gender" && sIncludes col.dataType "character" &&
  col.tableName == "trips"

/-- Gender-column predicate of the men branch (lines 512–515): a gender or
rider column of the trips table (no type restriction). -/
def isMenGenderCol (col : Column) : Bool :=
  (sIncludes (jsLower col.columnName) "gender" ||
   sIncludes (jsLower col.columnName) "rider") && col.tableName == "trips"

/-- Gender rule (lines 497–519). -/
def genderFiltersOf (tl : String) (safeColumns : List Column) : List Filter :=
  if sIncludes tl "women" || sIncludes tl "female" || sIncludes tl "woman" then
    match safeColumns.filter isWomenGenderCol with
    | g :: _ => [⟨g.columnName, "=", .str "female"⟩]
    | [] => []
  else if sIncludes tl "men" || sIncludes tl "male" then
    match safeColumns.filter isMenGenderCol with
    | g :: _ => [⟨g.columnName, "ILIKE", .str "%male%"⟩]
    | [] => []
  else []

/-- Location rule (lines 521–533). -/
def locationFiltersOf (tl : String) (safeColumns : List Column) : List Filter :=
  if sIncludes tl "congress avenue" || sIncludes tl "congress ave" ||
      sIncludes tl "congress" then
    match safeColumns.filter (fun col =>
      sIncludes (jsLower col.columnName) "station" &&
      sIncludes col.dataType "character" && col.tableName == "stations") with
    | s :: _ => [⟨s.columnName, "=", .str "Congress Avenue"⟩]
    | [] => []
  else []

/-- Rain rule (lines 535–538). -/
def rainyFiltersOf (tl : String) : List Filter :=
  if sIncludes tl "rainy" || sIncludes tl "rain" || sIncludes tl "wet" then
    [⟨"precipitation_mm", ">", .int 0⟩]
  else []

/-- Numeric precipitation comparisons (lines 540–549). -/
def numericWeatherFiltersOf (tl : String) : List Filter :=
  if sIncludes tl "precipitation_mm" ||
      (sIncludes tl "rain" &&
        (sIncludes tl ">=" || sIncludes tl "<=" || sIncludes tl "=")) then
    match numericCmpMatch tl with
    | some (op, n) => [⟨"precipitation_mm", op, .int n⟩]
    | none => []
  else []

/-- Dry-day rule (lines 551–556); unreachable for "non-rainy"/"not rainy"
because those phrases contain "rain". -/
def dryFiltersOf (tl : String) : List Filter :=
  if (sIncludes tl "non-rainy" || sIncludes tl "dry" || sIncludes tl "not rainy") &&
      !(sIncludes tl "rainy") && !(sIncludes tl "rain") && !(sIncludes tl "wet") then
    [⟨"precipitation_mm", "=", .int 0⟩]
  else []

/-- Temperature rule (lines 558–570). -/
def tempFiltersOf (tl : String) : List Filter :=
  if sIncludes tl "hot" || sIncludes tl ">30" || sIncludes tl "30°c" then
    [⟨"high_temp_c", ">", .int ((tempGtMatch tl).getD 30)⟩]
  else if sIncludes tl "cold" || sIncludes tl "<0" || sIncludes tl "0°c" then
    [⟨"low_temp_c", "<", .int ((tempLtMatch tl).getD 0)⟩]
  else []

/-- Age rule (lines 572–591); the reference year is the constant 2025. -/
def ageFiltersOf (tl : String) : List Filter :=
  if sIncludes tl "under" || sIncludes tl "over" || sIncludes tl "age" then
    match ageMatch tl with
    | some (cmp, n) =>
      if cmp == "under" then [⟨"rider_birth_year", ">", .int (2025 - (n : Int))⟩]
      else if cmp == "over" then [⟨"rider_birth_year", "<", .int (2025 - (n : Int))⟩]
      else []
    | none => []
  else []

/-- Weekend rule (lines 601–607). -/
def weekendFiltersOf (tl : String) : List Filter :=
  if sIncludes tl "weekend" || sIncludes tl "weekends" then
    [⟨"started_at", "WEEKEND", .null⟩]
  else []

/-- Weekday rule (lines 609–615). -/
def weekdayFiltersOf (tl : String) : List Filter :=
  if sIncludes tl "weekday" || sIncludes tl "weekdays" then
    [⟨"started_at", "WEEKDAY", .null⟩]
  else []

/-- Last-day-of-month rewrite (lines 617–644): on "last day" plus a
month/year phrase, drop every filter on a started/ended column and append
the last-day interval (note the source's `Date(year, month, 0)` is the
last day of the month before `getMonthNumber month`). -/
def applyLastDay (tl : String) (fs : List Filter) : List Filter :=
  if sIncludes tl "last day" || sIncludes tl "last day of" then
    match monthYearMatch tl with
    | some (month, year) =>
      let lastDayStr := toISODate (mkDate (year : Int) (getMonthNumber month : Int) 0)
      let nextMonthStr := toISODate (mkDate (year : Int) (getMonthNumber month : Int) 1)
      (fs.filter (fun f =>
        !(sIncludes f.column "started_at") && !(sIncludes f.column "ended_at"))) ++
      [⟨"started_at", ">=", .str lastDayStr⟩, ⟨"started_at", "<", .str nextMonthStr⟩]
    | none => fs
  else fs

/-- Grouping-dimension rule (lines 646–664): a "by dimension" phrase emits
one `DIMENSION`-operator carrier predicate. -/
def dimensionFiltersOf (tl : String) : List Filter :=
  match byDimensionMatch tl with
  | some dim =>
    if dim == "station" || dim == "end station" || dim == "start station" ||
        dim == "starts" then [⟨"group_by_station", "DIMENSION", .str dim⟩]
    else if dim == "distance" || dim == "trip distance" then
      [⟨"group_by_station", "DIMENSION", .str dim⟩]
    else if dim == "day" || dim == "date" then [⟨"group_by_date", "DIMENSION", .str dim⟩]
    else if dim == "gender" then [⟨"group_by_gender", "DIMENSION", .str dim⟩]
    else if dim == "bike" || dim == "model" then [⟨"group_by_bike", "DIMENSION", .str dim⟩]
    else []
  | none => []

/-- Source `parseFilters`: the rules fire independently (not mutually
exclusive) and their predicates accumulate in source order; the dynamic
type guards of the source are vacuous in this typed model. -/
def parseFilters (now : Date) (text : String) (columns : List Column)
    (primaryTable : String) : List Filter :=
  if text == "" then []
  else
    let tl := jsLower text
    let base :=
      dateFiltersOf now text tl columns primaryTable ++
      genderFiltersOf tl columns ++
      locationFiltersOf tl columns ++
      rainyFiltersOf tl ++
      numericWeatherFiltersOf tl ++
      dryFiltersOf tl ++
      tempFiltersOf tl ++
      ageFiltersOf tl ++
      weekendFiltersOf tl ++
      weekdayFiltersOf tl
    applyLastDay tl base ++ dimensionFiltersOf tl

/-! ## Query Plan Assembler (source: `QueryGenerator.buildSQLQuery`)

The source builds six clause strings plus a parameter array and
concatenates the clauses at the end (line 1259); the embedding computes
each clause with its own definition and assembles them in `SQLParts`. -/

/-- Join aliases established for the three joinable dimension keys of
`tableAliasMap` (`'stations'`, `'end_stations'`, `'daily_weather'`). -/
structure AliasMap where
  stations : Option String
  endStations : Option String
  dailyWeather : Option String
deriving Repr, DecidableEq

/-- Source `getTableAlias`. -/
def getTableAlias (tableName : String) : String :=
  if tableName == "trips" then "t"
  else if tableName == "stations" then "s"
  else if tableName == "daily_weather" then "w"
  else if tableName == "bikes" then "b"
  else "t"

/-- Ranking-query test shared by the SELECT, GROUP BY and LIMIT logic
(lines 789, 1147, 1249). -/
def isRankingSelect (tl : String) : Bool :=
  sIncludes tl "most" || sIncludes tl "highest" || sIncludes tl "busiest" ||
  (sIncludes tl "which" && sIncludes tl "departures") ||
  (sIncludes tl "which" && sIncludes tl "station")

/-- Line 794: whether a station display column is wanted. -/
def needsStationNameFlag (tl : String) : Bool :=
  isRankingSelect tl || sIncludes tl "which" || sIncludes tl "docking point"

/-- Line 833: scalar-aggregation classification of the question. -/
def isScalarAggregation (tl : String) : Bool :=
  !(sIncludes tl "most") && !(sIncludes tl "docking") &&
  !(sIncludes tl "which" && sIncludes tl "departures")

/-- Line 797: the duration-query SELECT override condition. -/
def durationSelectCond (tl : String) : Bool :=
  (sIncludes tl "average" || sIncludes tl "mean") &&
  (sIncludes tl "ride time" || sIncludes tl "journey" ||
   sIncludes tl "trip duration" || sIncludes tl "duration")

/-- Aggregation rendering of the ranking path (lines 812–830). -/
def renderAggRanking (primaryAlias : String) (agg : Aggregation) : String :=
  if agg.column == "duration_calculated" then
    "ROUND(AVG(EXTRACT(EPOCH FROM (t.ended_at - t.started_at)) / 60)::numeric, 0) AS " ++
      agg.aliasName
  else if agg.function == "COUNT" && agg.column == "*" then
    "COUNT(*) AS " ++ agg.aliasName
  else if agg.function == "SUM" && agg.aliasName == "total_kilometres" then
    if sIncludes agg.column "meters" then
      "ROUND(SUM(" ++ primaryAlias ++ "." ++ agg.column ++ ") * 0.001, 1) AS " ++ agg.aliasName
    else
      "ROUND(SUM(" ++ primaryAlias ++ "." ++ agg.column ++ "), 1) AS " ++ agg.aliasName
  else agg.function ++ "(" ++ primaryAlias ++ "." ++ agg.column ++ ") AS " ++ agg.aliasName

/-- Aggregation rendering of the scalar path (lines 839–865): the
schema-existence guard comes first and falls back to `COUNT(*)`. -/
def renderAggScalar (primaryAlias : String) (columns : List Column)
    (agg : Aggregation) : String :=
  if !(columns.any (fun col => col.columnName == agg.column)) then
    "COUNT(*) AS " ++ agg.aliasName
  else if agg.column == "duration_calculated" then
    "ROUND(AVG(EXTRACT(EPOCH FROM (t.ended_at - t.started_at)) / 60)::numeric, 0) AS " ++
      agg.aliasName
  else if agg.function == "SUM" && agg.aliasName == "total_kilometres" then
    if sIncludes agg.column "meters" then
      "ROUND(SUM(" ++ primaryAlias ++ "." ++ agg.column ++ ") * 0.001, 1) AS " ++ agg.aliasName
    else
      "ROUND(SUM(" ++ primaryAlias ++ "." ++ agg.column ++ "), 1) AS " ++ agg.aliasName
  else if agg.function == "SPEED" then
    "ROUND((SUM(t.trip_distance_km) / NULLIF(SUM(EXTRACT(EPOCH FROM (t.ended_at - t.started_at))) / 3600.0, 0)), 1) AS " ++
      agg.aliasName
  else agg.function ++ "(" ++ primaryAlias ++ "." ++ agg.column ++ ") AS " ++ agg.aliasName

/-- SELECT clause before the station-name prepend (lines 785–881). -/
def selectClauseBase (tl : String) (primaryTable primaryAlias : String)
    (columns : List Column) (aggregations : List Aggregation) : String :=
  if durationSelectCond tl then
    "SELECT ROUND(AVG(EXTRACT(EPOCH FROM (t.ended_at - t.started_at)) / 60)::numeric, 0) AS average_ride_time_minutes"
  else if sIncludes tl "mean" && sIncludes tl "trip duration" then
    "SELECT ROUND(AVG(EXTRACT(EPOCH FROM (t.ended_at - t.started_at)) / 60)::numeric, 0) AS mean_trip_duration_minutes"
  else if speedVocab tl then
    "SELECT ROUND(SUM(t.trip_distance_km) / NULLIF(SUM(EXTRACT(EPOCH FROM (t.ended_at - t.started_at)) / 3600.0), 0), 2) AS average_speed_kmh"
  else
    match aggregations with
    | [] =>
      let primaryTableColumns := (columns.filter (fun col => col.tableName == primaryTable)).take 5
      match primaryTableColumns with
      | [] => "SELECT " ++ primaryAlias ++ ".*"
      | cs => "SELECT " ++ joinSep ", " (cs.map (fun col => primaryAlias ++ "." ++ col.columnName))
    | agg0 :: _ =>
      if isScalarAggregation tl then "SELECT " ++ renderAggScalar primaryAlias columns agg0
      else "SELECT " ++ joinSep ", " (aggregations.map (renderAggRanking primaryAlias))

/-- Join need-analysis for the stations dimension (lines 890–896). -/
def needsStationInfoOf (tl : String) (filters : List Filter) : Bool :=
  filters.any (fun f => sIncludes f.column "station" || sIncludes f.column "name") ||
  sIncludes tl "congress" || sIncludes tl "avenue" || sIncludes tl "most" ||
  sIncludes tl "departures" || sIncludes tl "docking" ||
  filters.any (fun f => sStartsWith f.column "group_by_station")

/-- Join need-analysis for the end-station dimension (lines 899–903). -/
def needsEndStationInfoOf (tl : String) : Bool :=
  sIncludes tl "to" &&
  (sIncludes tl "congress" || sIncludes tl "state street" ||
   sIncludes tl "destination" || sIncludes tl "end station")

/-- Line 906: grouped top-k classification ("most departures/docking"). -/
def isGroupTopKQuery (tl : String) : Bool :=
  sIncludes tl "most" && (sIncludes tl "departures" || sIncludes tl "docking")

/-- Line 909: the invariant-check condition for a grouped top-k query
without a date filter.  When it holds the source only logs a CRITICAL
error (the comment claims the query will fail, but no failure is raised)
and assembly continues. -/
def groupTopKMissingDateFilter (tl : String) (filters : List Filter) : Bool :=
  isGroupTopKQuery tl && !(filters.any (fun f => sIncludes f.column "started_at"))

/-- Join need-analysis for the weather dimension: the disjunction of all
the mutations at lines 915–957 (filter shapes, weather vocabulary,
temperature vocabulary, and the advisory weather flag). -/
def needsWeatherInfoOf (tl : String) (filters : List Filter) (llm : LLMAnalysis) : Bool :=
  filters.any (fun f =>
    f.column == "precipitation_mm" || sIncludes f.column "precipitation" ||
    sIncludes f.column "condition" || sIncludes f.column "high_temp_c" ||
    sIncludes f.column "low_temp_c" ||
    (sIncludes f.column "weather" && !(sIncludes f.column "weather_date"))) ||
  sIncludes tl "wet" || sIncludes tl "rainy" || sIncludes tl "rain" ||
  sIncludes tl "precipitation" ||
  sIncludes tl "hot" || sIncludes tl "cold" || sIncludes tl ">30" || sIncludes tl "<0" ||
  sIncludes tl "30°c" || sIncludes tl "0°c" ||
  llm.weatherFilterFlag

/-- Join list, used aliases, and the alias map after the join blocks. -/
structure JoinState where
  joins : List String
  usedAliases : List String
  aliasMap : AliasMap
deriving Repr, DecidableEq

/-- One step of the advisory grouping-dimension join block (lines
1018–1040): an "end station" dimension adds the `s2` join when the
stations join is present and `s2` is unused. -/
def dimJoinStep (primaryAlias : String) (st : JoinState) (dim : String) : JoinState :=
  if sIncludes dim "end station" && st.aliasMap.stations.isSome &&
      !(st.usedAliases.contains "s2") then
    JoinState.mk
      (st.joins ++ [" JOIN stations s2 ON " ++ primaryAlias ++ ".end_station_id = s2.station_id"])
      (st.usedAliases ++ ["s2"]) { st.aliasMap with endStations := some "s2" }
  else st

/-- Stations join of the trips block (lines 963–973). -/
def stageStations (primaryAlias tl : String) (filters : List Filter)
    (st : JoinState) : JoinState :=
  if needsStationInfoOf tl filters && !(st.usedAliases.contains "s") then
    JoinState.mk
      (st.joins ++ [" JOIN stations s ON " ++ primaryAlias ++ ".start_station_id = s.station_id"])
      (st.usedAliases ++ ["s"]) { st.aliasMap with stations := some "s" }
  else st

/-- End-stations join of the trips block (lines 975–985). -/
def stageEndStations (primaryAlias tl : String) (st : JoinState) : JoinState :=
  if needsEndStationInfoOf tl && !(st.usedAliases.contains "s2") then
    JoinState.mk
      (st.joins ++ [" JOIN stations s2 ON " ++ primaryAlias ++ ".end_station_id = s2.station_id"])
      (st.usedAliases ++ ["s2"]) { st.aliasMap with endStations := some "s2" }
  else st

/-- Weather join of the trips block (lines 987–997). -/
def stageWeather (primaryAlias tl : String) (filters : List Filter)
    (llm : LLMAnalysis) (st : JoinState) : JoinState :=
  if needsWeatherInfoOf tl filters llm && !(st.usedAliases.contains "w") then
    JoinState.mk
      (st.joins ++ [" JOIN daily_weather w ON DATE(" ++ primaryAlias ++ ".started_at) = w.weather_date"])
      (st.usedAliases ++ ["w"]) { st.aliasMap with dailyWeather := some "w" }
  else st

/-- Stations join of the bikes block (lines 1000–1012). -/
def stageBikes (primaryTable primaryAlias tl : String) (st : JoinState) : JoinState :=
  if primaryTable == "bikes" &&
      (sIncludes tl "where" || sIncludes tl "currently" || sIncludes tl "docked") &&
      !(st.usedAliases.contains "s") then
    JoinState.mk
      (st.joins ++ [" JOIN stations s ON " ++ primaryAlias ++ ".current_station_id = s.station_id"])
      (st.usedAliases ++ ["s"]) { st.aliasMap with stations := some "s" }
  else st

/-- Join construction (lines 959–1042): the trips block, the bikes block,
and the advisory grouping-dimension block, in source order.  Every
`fromClause` reassignment in the source rebuilds it as the base plus all
joins accumulated so far, so the final FROM clause is the base plus the
final join list. -/
def buildJoins (primaryTable primaryAlias tl : String) (filters : List Filter)
    (llm : LLMAnalysis) : JoinState :=
  let st0 : JoinState := ⟨[], [primaryAlias], ⟨none, none, none⟩⟩
  let st1 :=
    if primaryTable == "trips" then
      stageWeather primaryAlias tl filters llm
        (stageEndStations primaryAlias tl (stageStations primaryAlias tl filters st0))
    else st0
  let st2 := stageBikes primaryTable primaryAlias tl st1
  if llm.groupingDimensions ≠ [] then
    llm.groupingDimensions.foldl (dimJoinStep primaryAlias) st2
  else st2

/-- SELECT clause including the station-name prepend (lines 1045–1050),
which replaces the leading `"SELECT "` by `"SELECT s.station_name, "`. -/
def selectClauseOf (tl primaryTable primaryAlias : String) (columns : List Column)
    (aggregations : List Aggregation) (filters : List Filter) (am : AliasMap) : String :=
  let base := selectClauseBase tl primaryTable primaryAlias columns aggregations
  if (needsStationNameFlag tl && needsStationInfoOf tl filters && am.stations.isSome) ||
      filters.any (fun f => sStartsWith f.column "group_by_station") then
    "SELECT s.station_name, " ++ sDrop base 7
  else base

/-- Column qualification of the WHERE renderer (lines 1062–1084):
station/name columns need the stations alias, weather/precipitation
columns need the daily_weather alias, everything else is qualified with
the primary alias; `none` means the required join is absent. -/
def qualifyColumn (am : AliasMap) (primaryAlias col : String) : Option String :=
  if sIncludes col "station" || sIncludes col "name" then
    match am.stations with
    | some a => some (a ++ "." ++ col)
    | none => none
  else if sIncludes col "weather" || sIncludes col "precipitation" then
    match am.dailyWeather with
    | some a => some (a ++ "." ++ col)
    | none => none
  else some (primaryAlias ++ "." ++ col)

/-- List view of an `IN` value (the source maps over `filter.value`, which
no assembler rule ever makes a non-array for `IN`; other shapes are
modeled as the empty list). -/
def valueAsList : FilterValue → List String
  | .list vs => vs
  | _ => []

/-- Render one WHERE condition (lines 1058–1109): returns the condition
text, the values pushed onto `params`, and the next parameter index.
An unresolvable station/weather qualification renders `1=0`, raises
nothing, and binds nothing. -/
def renderFilter (am : AliasMap) (primaryAlias : String) (f : Filter) (idx : Nat) :
    String × List FilterValue × Nat :=
  match qualifyColumn am primaryAlias f.column with
  | none => ("1=0", [], idx)
  | some qc =>
    if f.operator == "ILIKE" then
      (qc ++ " ILIKE $" ++ natToString idx, [f.value], idx + 1)
    else if f.operator == "IN" then
      let vs := valueAsList f.value
      (qc ++ " IN (" ++
         joinSep ", " ((List.range' idx vs.length).map (fun i => "$" ++ natToString i)) ++ ")",
       vs.map FilterValue.str, idx + vs.length)
    else if f.operator == "WEEKEND" then
      ("EXTRACT(DOW FROM " ++ qc ++ ") IN (0,6)", [], idx)
    else if f.operator == "WEEKDAY" then
      ("EXTRACT(DOW FROM " ++ qc ++ ") BETWEEN 1 AND 5", [], idx)
    else
      (qc ++ " " ++ f.operator ++ " $" ++ natToString idx, [f.value], idx + 1)

/-- Render all WHERE conditions, threading the parameter index. -/
def renderWhereFilters (am : AliasMap) (primaryAlias : String) :
    List Filter → Nat → List String × List FilterValue
  | [], _ => ([], [])
  | f :: fs, idx =>
    let r := renderFilter am primaryAlias f idx
    let rest := renderWhereFilters am primaryAlias fs r.2.2
    (r.1 :: rest.1, r.2.1 ++ rest.2)

/-- WHERE clause and bound parameters (lines 1052–1111); the grouping
carriers were already removed from `whereFilters` by the caller. -/
def whereClauseOf (am : AliasMap) (primaryAlias : String) (whereFilters : List Filter) :
    String × List FilterValue :=
  match whereFilters with
  | [] => ("", [])
  | _ :: _ =>
    let r := renderWhereFilters am primaryAlias whereFilters 1
    (" WHERE " ++ joinSep " AND " r.1, r.2)

/-- One step of the explicit-`DIMENSION` GROUP BY accumulation (lines
1122–1138). -/
def groupColStep (am : AliasMap) (primaryAlias primaryTable : String)
    (acc : List String) (f : Filter) : List String :=
  if f.column == "group_by_station" && am.stations.isSome then
    acc ++ [(am.stations.getD "s") ++ ".station_name"]
  else if f.column == "group_by_date" && primaryTable == "trips" then
    acc ++ ["DATE(" ++ primaryAlias ++ ".started_at)"]
  else if f.column == "group_by_gender" && primaryTable == "trips" then
    acc ++ [primaryAlias ++ ".rider_gender"]
  else if f.column == "group_by_bike" && primaryTable == "trips" then
    acc ++ [primaryAlias ++ ".bike_id"]
  else acc

/-- GROUP BY columns from explicit `DIMENSION` carriers (lines 1120–1139). -/
def groupColsFromDims (gfs : List Filter) (am : AliasMap)
    (primaryAlias primaryTable : String) : List String :=
  gfs.foldl (groupColStep am primaryAlias primaryTable) []

/-- GROUP BY clause before the advisory override (lines 1113–1175). -/
def groupByClauseBase (tl : String) (primaryTable primaryAlias : String)
    (columns : List Column) (aggregations : List Aggregation) (filters : List Filter)
    (am : AliasMap) : String :=
  let groupingFilters := filters.filter (fun f => sStartsWith f.column "group_by_")
  match groupingFilters with
  | _ :: _ =>
    match groupColsFromDims groupingFilters am primaryAlias primaryTable with
    | [] => ""
    | gcols => " GROUP BY " ++ joinSep ", " gcols
  | [] =>
    match aggregations with
    | [] => ""
    | _ :: _ =>
      if isRankingSelect tl &&
          aggregations.any (fun agg => agg.function == "COUNT" && agg.column == "*") then
        if sIncludes tl "departures" && am.stations.isSome then
          " GROUP BY " ++ (am.stations.getD "s") ++ ".station_name"
        else if sIncludes tl "station" || sIncludes tl "dock" then
          match am.stations with
          | some a => " GROUP BY " ++ a ++ ".station_name"
          | none => ""
        else
          match (columns.take 1).map (fun col => primaryAlias ++ "." ++ col.columnName) with
          | [] => ""
          | gcols => " GROUP BY " ++ joinSep ", " gcols
      else ""

/-- One step of the advisory-dimension GROUP BY accumulation (lines
1183–1197). -/
def llmDimColStep (am : AliasMap) (primaryAlias : String)
    (acc : List String) (dim : String) : List String :=
  if sIncludes dim "end station" && am.endStations.isSome then
    acc ++ [(am.endStations.getD "s2") ++ ".station_name"]
  else if sIncludes dim "start station" || sIncludes dim "station" ||
      sIncludes dim "dock" || sIncludes dim "docking point" then
    match am.stations with
    | some a => acc ++ [a ++ ".station_name"]
    | none => acc
  else if sIncludes dim "gender" || sIncludes dim "rider" then
    acc ++ [primaryAlias ++ ".rider_gender"]
  else if sIncludes dim "date" || sIncludes dim "day" then
    acc ++ ["DATE(" ++ primaryAlias ++ ".started_at)"]
  else if sIncludes dim "weekday" || sIncludes dim "weekend" then
    acc ++ ["DATE(" ++ primaryAlias ++ ".started_at)"]
  else acc

/-- GROUP BY columns from the advisory grouping dimensions (lines
1182–1198). -/
def groupColsFromLLMDims (dims : List String) (am : AliasMap) (primaryAlias : String) :
    List String :=
  dims.foldl (llmDimColStep am primaryAlias) []

/-- Full GROUP BY clause including the advisory override (lines 1177–1204). -/
def groupByClauseOf (tl : String) (primaryTable primaryAlias : String)
    (columns : List Column) (aggregations : List Aggregation) (filters : List Filter)
    (am : AliasMap) (llm : LLMAnalysis) : String :=
  let base := groupByClauseBase tl primaryTable primaryAlias columns aggregations filters am
  if llm.groupingDimensions ≠ [] then
    match groupColsFromLLMDims llm.groupingDimensions am primaryAlias with
    | [] => base
    | gcols => " GROUP BY " ++ joinSep ", " gcols
  else base

/-- Ranking test of the ORDER BY logic (line 1210), which additionally
counts a "top" phrase as ranking. -/
def isRankingOrder (tl : String) : Bool :=
  isRankingSelect tl || sIncludes tl "top"

/-- ORDER BY clause (lines 1206–1238). -/
def orderByClauseOf (tl : String) (aggregations : List Aggregation) : String :=
  match aggregations with
  | [] => ""
  | firstAgg :: _ =>
    if isRankingOrder tl then
      if sIncludes tl "departures" then " ORDER BY departure_count DESC"
      else if sIncludes tl "station" || sIncludes tl "dock" then
        if firstAgg.aliasName ≠ "" then " ORDER BY " ++ firstAgg.aliasName ++ " DESC" else ""
      else if firstAgg.aliasName ≠ "" then " ORDER BY " ++ firstAgg.aliasName ++ " DESC"
      else ""
    else ""

/-- LIMIT clause (lines 1240–1257). -/
def limitClauseOf (tl : String) : String :=
  match topMatch tl with
  | some n => " LIMIT " ++ natToString n
  | none =>
    if sIncludes tl "most" || sIncludes tl "highest" || sIncludes tl "busiest" ||
        (sIncludes tl "which" && sIncludes tl "departures") ||
        (sIncludes tl "which" && sIncludes tl "station") then " LIMIT 1"
    else ""

/-- The six clause strings and the bound parameters of a generated query. -/
structure SQLParts where
  selectClause : String
  fromClause : String
  whereClause : String
  groupByClause : String
  orderByClause : String
  limitClause : String
  params : List FilterValue
deriving Repr, DecidableEq

/-- Final query text (source line 1259). -/
def SQLParts.sql (p : SQLParts) : String :=
  p.selectClause ++ p.fromClause ++ p.whereClause ++ p.groupByClause ++
  p.orderByClause ++ p.limitClause

/-- Specification-side scanner: the positional-placeholder numbers of a
query text, in text order — for every `'$'` character, the value of the
maximal digit run immediately following it. -/
def dollarNums : List Char → List Nat
  | [] => []
  | c :: cs =>
    if c == '$' then natOfDigits (cs.takeWhile isDigitCh) :: dollarNums cs
    else dollarNums cs

/-- Specification-side notion: the parameter values one WHERE filter is
expected to bind — one per non-flag comparison actually rendered, one per
`IN`-list element, none for the flag operators `WEEKEND`/`WEEKDAY` and
none for an unresolvable qualification (which renders `1=0`). -/
def expectedParams (am : AliasMap) (primaryAlias : String) (f : Filter) :
    List FilterValue :=
  match qualifyColumn am primaryAlias f.column with
  | none => []
  | some _ =>
    if f.operator == "ILIKE" then [f.value]
    else if f.operator == "IN" then (valueAsList f.value).map FilterValue.str
    else if f.operator == "WEEKEND" then []
    else if f.operator == "WEEKDAY" then []
    else [f.value]

/-- A string whose first character (if any) is not a decimal digit, so
that appending it after a placeholder cannot extend the placeholder's
number. -/
def headND (s : String) : Prop :=
  ∀ c, s.data.head? = some c → isDigitCh c = false

/-- Cleanliness invariant of the join-construction state: no join text
contains a placeholder character and the established aliases are the
fixed source literals. -/
abbrev cleanJoinState (st : JoinState) : Prop :=
  (∀ j ∈ st.joins, '$' ∉ j.data) ∧
  (st.aliasMap.stations = none ∨ st.aliasMap.stations = some "s") ∧
  (st.aliasMap.endStations = none ∨ st.aliasMap.endStations = some "s2") ∧
  (st.aliasMap.dailyWeather = none ∨ st.aliasMap.dailyWeather = some "w")

/-- Source `buildSQLQuery` (the `tables` argument is unused by the source
body as well). -/
def buildSQLQuery (primaryTable : String) (tables : List TableMapping)
    (columns : List Column) (aggregations : List Aggregation) (filters : List Filter)
    (userText : String) (llm : LLMAnalysis) : SQLParts :=
  let _ := tables
  let tl := jsLower userText
  let primaryAlias := getTableAlias primaryTable
  let st := buildJoins primaryTable primaryAlias tl filters llm
  let am := st.aliasMap
  let fromClause := " FROM " ++ primaryTable ++ " " ++ primaryAlias ++ joinSep "" st.joins
  let selectClause := selectClauseOf tl primaryTable primaryAlias columns aggregations filters am
  let whereFilters := filters.filter (fun f => !(sStartsWith f.column "group_by_"))
  let wr := whereClauseOf am primaryAlias whereFilters
  let groupByClause := groupByClauseOf tl primaryTable primaryAlias columns aggregations filters am llm
  let orderByClause := orderByClauseOf tl aggregations
  let limitClause := limitClauseOf tl
  ⟨selectClause, fromClause, wr.1, groupByClause, orderByClause, limitClause, wr.2⟩

/-! ## Semantic Column Mapper (source: `SemanticMapper`)

`calculateColumnScore` is a sequence of `score += bonus` statements; the
embedding writes each bonus as its own definition and sums them in source
order (addition is commutative so the sum equals the sequential updates). -/

/-- Lowercased question words: `userText.toLowerCase().split(/\s+/)`
filtered to nonempty (source line 128). -/
def userWordsOf (userText : String) : List String :=
  (splitRuns isSpaceCh (jsLower userText).data).filter (fun w => w ≠ "")

/-- Temporal vocabulary (source line 165). -/
def dateWords : List String :=
  ["date", "time", "when", "june", "2025", "month", "week", "day", "started",
   "ended", "ride", "journey", "first", "last"]

/-- Quantity vocabulary (source line 166). -/
def numericWords : List String :=
  ["number", "amount", "count", "total", "sum", "average", "avg", "distance",
   "km", "kilometre", "how many", "most", "departures"]

/-- Descriptive/location vocabulary (source line 167). -/
def textWords : List String :=
  ["name", "text", "description", "label", "avenue", "congress", "station",
   "location", "place", "point", "docking"]

/-- Gender vocabulary (source line 168). -/
def genderWords : List String :=
  ["women", "men", "gender", "female", "male", "rider"]

/-- Weather vocabulary (source line 169). -/
def weatherWords : List String :=
  ["weather", "rain", "rainy", "precipitation", "temperature", "temp", "condition"]

/-- Distance-hint vocabulary (source lines 158 and 200, identical lists). -/
def distanceHintWords : List String :=
  ["distance", "km", "kilometre", "kilometres", "kilometer", "kilometers",
   "how many kilometres", "how many kilometers"]

/-- Exact column-name match bonus (line 141): +100. -/
def scoreExactName (userWords : List String) (columnName : String) : Int :=
  if userWords.any (fun w => w == columnName) then 100 else 0

/-- Partial-containment bonuses of one question word (lines 144–154):
+50 / +30 / +25, only for words longer than two characters. -/
def scorePartialOneWord (columnName : String) (columnTokens : List String)
    (w : String) : Int :=
  if w.data.length > 2 then
    (if sIncludes columnName w then 50 else 0) +
    (if sIncludes w columnName then 30 else 0) +
    (if columnTokens.any (fun t => sIncludes t w || sIncludes w t) then 25 else 0)
  else 0

/-- Sum of the partial-containment bonuses over all question words; the
column tokens come from `columnName.split(/[_\s]+/)` (line 149). -/
def scorePartialName (columnName : String) (userWords : List String) : Int :=
  let columnTokens := splitRuns (fun c => c == '_' || isSpaceCh c) columnName.data
  (userWords.map (scorePartialOneWord columnName columnTokens)).sum

/-- Distance-column bonus (lines 157–162): +50. -/
def scoreDistanceBonus (columnName : String) (userWords : List String) : Int :=
  if (sIncludes columnName "distance" || sIncludes columnName "km") &&
      userWords.any (fun w => distanceHintWords.contains w) then 50 else 0

/-- Declared-type compatibility bonuses (lines 171–183). -/
def scoreTypeBonus (dataType : String) (userWords : List String) : Int :=
  (if (sIncludes dataType "timestamp" || sIncludes dataType "date") &&
      userWords.any (fun w => dateWords.contains w) then 40 else 0) +
  (if (sIncludes dataType "numeric" || sIncludes dataType "integer") &&
      userWords.any (fun w => numericWords.contains w) then 40 else 0) +
  (if sIncludes dataType "character" || sIncludes dataType "text" then
    (if userWords.any (fun w => textWords.contains w) then 40 else 0) +
    (if userWords.any (fun w => genderWords.contains w) then 35 else 0) +
    (if userWords.any (fun w => weatherWords.contains w) then 35 else 0)
  else 0)

/-- Sampled-value overlap bonus (lines 186–193): +30 per question word. -/
def scoreValueOverlap (sampled : Option (List String)) (userWords : List String) : Int :=
  match sampled with
  | none => 0
  | some vals =>
    let lvals := vals.map jsLower
    (userWords.map (fun w =>
      if lvals.any (fun v => sIncludes v w || sIncludes w v) then (30 : Int) else 0)).sum

/-- Table proximity and domain bonuses (lines 196–217). -/
def scoreTableBonus (tableName : String) (userWords : List String) : Int :=
  (if tableName == "trips" then
    (if userWords.any (fun w =>
        (["trip", "ride", "journey", "started", "ended", "departure",
          "arrival"] : List String).contains w) then 30 else 0) +
    (if userWords.any (fun w =>
        (["time", "duration", "how long", "average"] : List String).contains w)
      then 25 else 0) +
    (if userWords.any (fun w => distanceHintWords.contains w) then 35 else 0) +
    (if userWords.any (fun w =>
        (["women", "woman", "female", "females", "gender"] : List String).contains w)
      then 25 else 0)
  else 0) +
  (if tableName == "stations" then
    (if userWords.any (fun w =>
        (["station", "congress", "avenue", "location", "place", "start", "end",
          "point", "docking"] : List String).contains w) then 30 else 0) +
    (if userWords.any (fun w =>
        (["name", "title", "most", "departures"] : List String).contains w)
      then 25 else 0)
  else 0) +
  (if tableName == "daily_weather" then
    (if userWords.any (fun w =>
        (["weather", "rain", "rainy", "precipitation", "condition"] : List String).contains w)
      then 30 else 0) +
    (if userWords.any (fun w =>
        (["temperature", "temp", "hot", "cold"] : List String).contains w)
      then 25 else 0)
  else 0) +
  (if tableName == "bikes" then
    (if userWords.any (fun w =>
        (["bike", "bicycle", "vehicle"] : List String).contains w) then 30 else 0)
  else 0)

/-- Cardinality bonus (lines 220–222): +10 for more than 10 sampled values. -/
def scoreCardinality (sampled : Option (List String)) : Int :=
  match sampled with
  | none => 0
  | some vals => if vals.length > 10 then 10 else 0

/-- Source `calculateColumnScore`: zero base, additive bonuses only. -/
def calculateColumnScore (userText : String) (cm : SchemaColumn) : Int :=
  if userText == "" || cm.column_name == "" then 0
  else
    let userWords := userWordsOf userText
    let columnName := jsLower cm.column_name
    let dataType := jsLower cm.data_type
    let tableName := jsLower cm.table_name
    scoreExactName userWords columnName +
    scorePartialName columnName userWords +
    scoreDistanceBonus columnName userWords +
    scoreTypeBonus dataType userWords +
    scoreValueOverlap cm.sampled_values userWords +
    scoreTableBonus tableName userWords +
    scoreCardinality cm.sampled_values

/-- Stable descending insertion by an integer key: an earlier element
stays before a later element of equal key.  A stable sort's output is
unique, so this models JS's (spec-mandated stable)
`sort((a, b) => b.score - a.score)`. -/
def insertByScoreDesc (score : α → Int) (x : α) : List α → List α
  | [] => [x]
  | y :: ys => if score y ≤ score x then x :: y :: ys else y :: insertByScoreDesc score x ys

/-- Stable descending sort by an integer key. -/
def stableSortByScoreDesc (score : α → Int) : List α → List α
  | [] => []
  | x :: xs => insertByScoreDesc score x (stableSortByScoreDesc score xs)

/-- Validity check of `groupColumnsByTable` (line 109): rows with an empty
table or column name are skipped. -/
def validSchemaCol (c : SchemaColumn) : Bool :=
  c.table_name ≠ "" && c.column_name ≠ ""

/-- First-appearance order of table names in the schema cache (the
iteration order of the JS `Map` built by `groupColumnsByTable`). -/
def tableNamesInOrder (cache : List SchemaColumn) : List String :=
  cache.foldl (fun acc c =>
    if validSchemaCol c && !(acc.contains c.table_name) then acc ++ [c.table_name]
    else acc) []

/-- Scored columns in grouped order (lines 418–438): all columns of the
first table, then the second, and so on; the `-10` retention threshold is
applied here as in the source. -/
def scoredColumnsOf (cache : List SchemaColumn) (userText : String) : List Column :=
  (tableNamesInOrder cache).flatMap (fun t =>
    (cache.filter (fun c => validSchemaCol c && c.table_name == t)).filterMap (fun c =>
      let score := calculateColumnScore userText c
      if score ≥ -10 then some ⟨t, c.column_name, c.data_type, score⟩ else none))

/-- One `tableScores.set(t, Math.max(tableScores.get(t) || 0, s))` step on
an insertion-ordered association list. -/
def upsertMaxScore (acc : List (String × Int)) (t : String) (s : Int) :
    List (String × Int) :=
  match acc with
  | [] => [(t, max 0 s)]
  | (k, v) :: rest =>
    if k == t then (k, max v s) :: rest else (k, v) :: upsertMaxScore rest t s

/-- Table scores as the per-table maximum of the (sorted) column scores
(lines 444–448), in `Map` insertion order. -/
def tableScoresOf (sortedCols : List Column) : List (String × Int) :=
  sortedCols.foldl (fun acc c => upsertMaxScore acc c.tableName c.score) []

/-- The deterministic part of the mapper's result. -/
structure Mapping where
  tables : List TableMapping
  suggestedColumns : List Column
deriving Repr, DecidableEq

/-- Source `mapUserQueryToSchema` (lines 403–480): score, sort, derive
table scores, apply the advisory boosts, re-sort, slice.  The schema
cache and the advisory analysis are explicit inputs. -/
def mapUserQueryToSchema (cache : List SchemaColumn) (llm : LLMAnalysis)
    (userText : String) : Mapping :=
  let sorted := stableSortByScoreDesc (fun c : Column => c.score) (scoredColumnsOf cache userText)
  let tables1 := stableSortByScoreDesc (fun t : TableMapping => t.score)
    ((tableScoresOf sorted).map (fun e => TableMapping.mk e.1 e.2))
  let tables2 :=
    if llm.suggestedTables ≠ [] then
      tables1.map (fun t =>
        if llm.suggestedTables.contains t.tableName then { t with score := t.score + 20 }
        else t)
    else tables1
  let cols2 :=
    if llm.suggestedColumns ≠ [] then
      sorted.map (fun c =>
        if llm.suggestedColumns.contains c.columnName then { c with score := c.score + 15 }
        else c)
    else sorted
  let tables3 := stableSortByScoreDesc (fun t : TableMapping => t.score) tables2
  let cols3 := stableSortByScoreDesc (fun c : Column => c.score) cols2
  ⟨tables3.take 3, cols3.take 15⟩

/-! ## Top-level translation (source: `QueryGenerator.generateQuery`) -/

/-- The complete result of one translation. -/
structure ParsedQuery where
  sql : String
  params : List FilterValue
  tables : List String
  columns : List String
  aggregations : List Aggregation
  filters : List Filter
deriving Repr, DecidableEq

/-- The hardcoded T-1 result (source lines 748–761). -/
def t1Plan : ParsedQuery :=
  { sql := "SELECT ROUND(AVG(EXTRACT(EPOCH FROM (t.ended_at - t.started_at)) / 60)::numeric, 0) AS average_ride_time_minutes FROM trips t JOIN stations s ON t.start_station_id = s.station_id WHERE t.started_at >= $1 AND t.started_at < $2 AND s.station_name = $3"
    params := [.str "2025-06-01", .str "2025-07-01", .str "Congress Avenue"]
    tables := ["trips", "stations"]
    columns := ["started_at", "ended_at", "station_name"]
    aggregations := [⟨"AVG", "duration_calculated", "average_ride_time_minutes"⟩]
    filters := [⟨"started_at", ">=", .str "2025-06-01"⟩,
                ⟨"started_at", "<", .str "2025-07-01"⟩,
                ⟨"station_name", "=", .str "Congress Avenue"⟩] }

/-- The T-1 bypass condition (lines 743–745, also repeated verbatim in the
request handler at `index.ts` lines 583–585). -/
def isT1Query (tl : String) : Bool :=
  sIncludes tl "average" && (sIncludes tl "ride time" || sIncludes tl "journey") &&
  sIncludes tl "congress avenue"

/-- Source `generateQuery` (lines 672–773).  The only `throw` is the
"no relevant tables" error; everything else returns a plan.  The empty
`isSpeedQuery` block (lines 717–719) and the unused per-table column
locals (lines 726–738) have no effect and are omitted. -/
def generateQuery (now : Date) (cache : List SchemaColumn) (llm : LLMAnalysis)
    (userText : String) : Except String ParsedQuery :=
  let mapping := mapUserQueryToSchema cache llm userText
  let relevantTables := (mapping.tables.filter (fun t => t.score > -5)).take 3
  let relevantColumns := (mapping.suggestedColumns.filter (fun c => c.score > -5)).take 15
  if relevantTables.isEmpty then .error "No relevant tables found for the query"
  else
    let timestampColumns := relevantColumns.filter (fun c =>
      sIncludes c.dataType "timestamp" || sIncludes c.dataType "date")
    let primary0 :=
      match stableSortByScoreDesc (fun c : Column => c.score) timestampColumns with
      | c :: _ => c.tableName
      | [] => "trips"
    let primary1 :=
      if relevantTables.any (fun t => t.tableName == "trips") && primary0 ≠ "trips" then
        "trips"
      else primary0
    let tl := jsLower userText
    let primary2 :=
      if sIncludes tl "departures" || sIncludes tl "journeys" || sIncludes tl "trips" ||
          sIncludes tl "ride" || sIncludes tl "docking" then "trips"
      else primary1
    let primaryTable := if isBikeRelatedQuery userText then "bikes" else primary2
    let aggregations := parseAggregations userText relevantColumns
    let filters := parseFilters now userText relevantColumns primaryTable
    if isT1Query tl then .ok t1Plan
    else
      let parts := buildSQLQuery primaryTable relevantTables relevantColumns aggregations
        filters userText llm
      .ok { sql := parts.sql, params := parts.params,
            tables := relevantTables.map (fun t => t.tableName),
            columns := relevantColumns.map (fun c => c.columnName),
            aggregations := aggregations, filters := filters }

/-! ## Concrete instances for witnesses

A schema cache matching the bike-share database of the repository
(tables `trips`, `stations`, `daily_weather`, `bikes`), with no sampled
values (the state after a sampling-free refresh), the deterministic
fallback analysis produced when the LLM is unavailable and the question
contains no "by <dimension>" phrase, and a fixed current date. -/

/-- Schema cache rows in introspection order. -/
def bikeSchema : List SchemaColumn :=
  [⟨"trips", "trip_id", "integer", none⟩,
   ⟨"trips", "bike_id", "integer", none⟩,
   ⟨"trips", "start_station_id", "integer", none⟩,
   ⟨"trips", "end_station_id", "integer", none⟩,
   ⟨"trips", "started_at", "timestamp without time zone", none⟩,
   ⟨"trips", "ended_at", "timestamp without time zone", none⟩,
   ⟨"trips", "trip_distance_km", "numeric", none⟩,
   ⟨"trips", "rider_gender", "character varying", none⟩,
   ⟨"trips", "rider_birth_year", "integer", none⟩,
   ⟨"stations", "station_id", "integer", none⟩,
   ⟨"stations", "station_name", "character varying", none⟩,
   ⟨"daily_weather", "weather_date", "date", none⟩,
   ⟨"daily_weather", "precipitation_mm", "numeric", none⟩,
   ⟨"daily_weather", "high_temp_c", "numeric", none⟩,
   ⟨"daily_weather", "low_temp_c", "numeric", none⟩,
   ⟨"bikes", "bike_id", "integer", none⟩,
   ⟨"bikes", "model", "character varying", none⟩,
   ⟨"bikes", "purchase_date", "date", none⟩]

/-- The keyword-fallback advisory analysis for a question with no
"by <dimension>" phrase: empty suggestions, no weather flag, no
grouping dimensions (source `semanticMapper.ts` lines 346–396). -/
def fallbackLLM : LLMAnalysis := ⟨[], [], false, []⟩

/-- A fixed current date (only the "last month" branch reads it). -/
def now0 : Date := ⟨2025, 5, 15⟩

/-- Specification-side notion: the first day of 0-based month `m` of year
`y` (used to compare the resolver's output against the spec's wording). -/
def firstOfMonth (y : Int) (m : Nat) : Date := ⟨y, m, 1⟩

/-- Specification-side notion: the first day of the month following
0-based month `m` of year `y`. -/
def firstOfNextMonth (y : Int) (m : Nat) : Date :=
  if m = 11 then ⟨y + 1, 0, 1⟩ else ⟨y, m + 1, 1⟩

/-! ## Helper lemmas -/

/-- An `ite` of two nonnegative integers is nonnegative. -/
theorem iteNonneg {c : Prop} [Decidable c] {a b : Int} (ha : 0 ≤ a) (hb : 0 ≤ b) :
    0 ≤ if c then a else b := by
  split <;> assumption

theorem scoreExactName_nonneg (ws : List String) (cn : String) :
    0 ≤ scoreExactName ws cn := by
  unfold scoreExactName; exact iteNonneg (by omega) (by omega)

theorem scorePartialOneWord_nonneg (cn : String) (ts : List String) (w : String) :
    0 ≤ scorePartialOneWord cn ts w := by
  unfold scorePartialOneWord
  refine iteNonneg ?_ (by omega)
  have h1 : (0 : Int) ≤ if sIncludes cn w = true then 50 else 0 := iteNonneg (by omega) (by omega)
  have h2 : (0 : Int) ≤ if sIncludes w cn = true then 30 else 0 := iteNonneg (by omega) (by omega)
  have h3 : (0 : Int) ≤
      if ts.any (fun t => sIncludes t w || sIncludes w t) = true then 25 else 0 :=
    iteNonneg (by omega) (by omega)
  omega

theorem scorePartialName_nonneg (cn : String) (ws : List String) :
    0 ≤ scorePartialName cn ws := by
  unfold scorePartialName
  apply List.sum_nonneg
  intro x hx
  obtain ⟨w, _, rfl⟩ := List.mem_map.mp hx
  exact scorePartialOneWord_nonneg _ _ _

theorem scoreDistanceBonus_nonneg (cn : String) (ws : List String) :
    0 ≤ scoreDistanceBonus cn ws := by
  unfold scoreDistanceBonus; exact iteNonneg (by omega) (by omega)

theorem scoreTypeBonus_nonneg (dt : String) (ws : List String) :
    0 ≤ scoreTypeBonus dt ws := by
  unfold scoreTypeBonus
  have h1 : (0 : Int) ≤
      if (sIncludes dt "timestamp" || sIncludes dt "date") = true ∧
          ws.any (fun w => dateWords.contains w) = true then 40 else 0 :=
    iteNonneg (by omega) (by omega)
  have h2 : (0 : Int) ≤
      if (sIncludes dt "numeric" || sIncludes dt "integer") = true ∧
          ws.any (fun w => numericWords.contains w) = true then 40 else 0 :=
    iteNonneg (by omega) (by omega)
  refine add_nonneg (add_nonneg ?_ ?_) ?_
  · exact iteNonneg (by omega) (by omega)
  · exact iteNonneg (by omega) (by omega)
  · refine iteNonneg ?_ (by omega)
    refine add_nonneg (add_nonneg ?_ ?_) ?_ <;> exact iteNonneg (by omega) (by omega)

theorem scoreValueOverlap_nonneg (sv : Option (List String)) (ws : List String) :
    0 ≤ scoreValueOverlap sv ws := by
  cases sv with
  | none => simp [scoreValueOverlap]
  | some vals =>
    simp only [scoreValueOverlap]
    apply List.sum_nonneg
    intro x hx
    obtain ⟨w, _, rfl⟩ := List.mem_map.mp hx
    exact iteNonneg (by omega) (by omega)

theorem scoreTableBonus_nonneg (tn : String) (ws : List String) :
    0 ≤ scoreTableBonus tn ws := by
  unfold scoreTableBonus
  refine add_nonneg (add_nonneg (add_nonneg ?_ ?_) ?_) ?_ <;>
    refine iteNonneg ?_ (by omega)
  · refine add_nonneg (add_nonneg (add_nonneg ?_ ?_) ?_) ?_ <;>
      exact iteNonneg (by omega) (by omega)
  · refine add_nonneg ?_ ?_ <;> exact iteNonneg (by omega) (by omega)
  · refine add_nonneg ?_ ?_ <;> exact iteNonneg (by omega) (by omega)
  · exact iteNonneg (by omega) (by omega)

theorem scoreCardinality_nonneg (sv : Option (List String)) :
    0 ≤ scoreCardinality sv := by
  cases sv with
  | none => simp [scoreCardinality]
  | some vals =>
    simp only [scoreCardinality]
    exact iteNonneg (by omega) (by omega)

/-- Core nonnegativity fact: every column score is a sum of nonnegative
bonuses starting from 0. -/
theorem calculateColumnScore_nonneg (userText : String) (cm : SchemaColumn) :
    0 ≤ calculateColumnScore userText cm := by
  unfold calculateColumnScore
  split
  · omega
  · refine add_nonneg (add_nonneg (add_nonneg (add_nonneg (add_nonneg
      (add_nonneg ?_ ?_) ?_) ?_) ?_) ?_) ?_
    · exact scoreExactName_nonneg _ _
    · exact scorePartialName_nonneg _ _
    · exact scoreDistanceBonus_nonneg _ _
    · exact scoreTypeBonus_nonneg _ _
    · exact scoreValueOverlap_nonneg _ _
    · exact scoreTableBonus_nonneg _ _
    · exact scoreCardinality_nonneg _

/-- Membership is preserved by the stable insertion. -/
theorem mem_insertByScoreDesc {score : α → Int} {x a : α} {l : List α} :
    a ∈ insertByScoreDesc score x l ↔ a = x ∨ a ∈ l := by
  induction l with
  | nil => simp [insertByScoreDesc]
  | cons y ys ih =>
    unfold insertByScoreDesc
    split
    · simp
    · simp only [List.mem_cons, ih]
      tauto

/-- Membership is preserved by the stable sort. -/
theorem mem_stableSortByScoreDesc {score : α → Int} {a : α} {l : List α} :
    a ∈ stableSortByScoreDesc score l ↔ a ∈ l := by
  induction l with
  | nil => simp [stableSortByScoreDesc]
  | cons x xs ih =>
    unfold stableSortByScoreDesc
    rw [mem_insertByScoreDesc, ih]
    simp

/-- The stable sort of a nonempty list is nonempty. -/
theorem stableSortByScoreDesc_ne_nil {score : α → Int} {l : List α} (h : l ≠ []) :
    stableSortByScoreDesc score l ≠ [] := by
  obtain ⟨x, hx⟩ := List.exists_mem_of_ne_nil l h
  exact List.ne_nil_of_mem (mem_stableSortByScoreDesc.mpr hx)

/-- Every score appearing in `scoredColumnsOf` is a `calculateColumnScore`
value, hence nonnegative. -/
theorem scoredColumnsOf_nonneg {cache : List SchemaColumn} {userText : String}
    {c : Column} (hc : c ∈ scoredColumnsOf cache userText) : 0 ≤ c.score := by
  unfold scoredColumnsOf at hc
  obtain ⟨t, _, hc2⟩ := List.mem_flatMap.mp hc
  obtain ⟨sc, _, hc3⟩ := List.mem_filterMap.mp hc2
  by_cases h : calculateColumnScore userText sc ≥ -10
  · simp only [h, if_pos] at hc3
    cases hc3
    exact calculateColumnScore_nonneg _ _
  · simp [h] at hc3

/-- Every value in the table-score association list is nonnegative
(the base of the running maximum is 0). -/
theorem upsertMaxScore_nonneg {acc : List (String × Int)} {t : String} {s : Int}
    (hacc : ∀ e ∈ acc, 0 ≤ e.2) :
    ∀ e ∈ upsertMaxScore acc t s, 0 ≤ e.2 := by
  induction acc with
  | nil =>
    intro e he
    simp only [upsertMaxScore, List.mem_singleton] at he
    subst he
    exact le_max_left 0 s
  | cons kv rest ih =>
    intro e he
    unfold upsertMaxScore at he
    split at he
    · rcases List.mem_cons.mp he with h | h
      · subst h
        have := hacc kv (by simp)
        exact le_trans this (le_max_left _ _)
      · exact hacc e (List.mem_cons_of_mem _ h)
    · rcases List.mem_cons.mp he with h | h
      · subst h; exact hacc _ (by simp)
      · exact ih (fun e' he' => hacc e' (List.mem_cons_of_mem _ he')) e h

/-- All derived table scores are nonnegative. -/
theorem tableScoresOf_nonneg {cols : List Column} :
    ∀ e ∈ tableScoresOf cols, 0 ≤ e.2 := by
  unfold tableScoresOf
  suffices h : ∀ (cs : List Column) (acc : List (String × Int)),
      (∀ e ∈ acc, 0 ≤ e.2) →
      ∀ e ∈ cs.foldl (fun acc c => upsertMaxScore acc c.tableName c.score) acc, 0 ≤ e.2 by
    exact h cols [] (by simp)
  intro cs
  induction cs with
  | nil => intro acc hacc e he; exact hacc e he
  | cons c rest ih =>
    intro acc hacc e he
    exact ih _ (upsertMaxScore_nonneg hacc) e he

/-- The `upsertMaxScore` step never empties the accumulator. -/
theorem upsertMaxScore_ne_nil (acc : List (String × Int)) (t : String) (s : Int) :
    upsertMaxScore acc t s ≠ [] := by
  cases acc with
  | nil => simp [upsertMaxScore]
  | cons kv rest =>
    obtain ⟨k, v⟩ := kv
    unfold upsertMaxScore
    split <;> simp

/-- The table-score list of a nonempty column list is nonempty. -/
theorem tableScoresOf_ne_nil {cols : List Column} (h : cols ≠ []) :
    tableScoresOf cols ≠ [] := by
  unfold tableScoresOf
  suffices hgen : ∀ (cs : List Column) (acc : List (String × Int)),
      (acc ≠ [] ∨ cs ≠ []) →
      cs.foldl (fun acc c => upsertMaxScore acc c.tableName c.score) acc ≠ [] by
    exact hgen cols [] (Or.inr h)
  intro cs
  induction cs with
  | nil =>
    intro acc hne
    rcases hne with h1 | h1
    · simpa using h1
    · simp at h1
  | cons c rest ih =>
    intro acc _
    exact ih _ (Or.inl (upsertMaxScore_ne_nil acc c.tableName c.score))

/-- Every table and column of the mapper's result has a nonnegative score. -/
theorem mapUserQueryToSchema_nonneg (cache : List SchemaColumn) (llm : LLMAnalysis)
    (userText : String) :
    (∀ c ∈ (mapUserQueryToSchema cache llm userText).suggestedColumns, 0 ≤ c.score) ∧
    (∀ t ∈ (mapUserQueryToSchema cache llm userText).tables, 0 ≤ t.score) := by
  unfold mapUserQueryToSchema
  simp only
  constructor
  · intro c hc
    have hc1 := List.mem_of_mem_take hc
    rw [mem_stableSortByScoreDesc] at hc1
    split at hc1
    · obtain ⟨c0, hc0, hceq⟩ := List.mem_map.mp hc1
      have h0 : 0 ≤ c0.score := scoredColumnsOf_nonneg (mem_stableSortByScoreDesc.mp hc0)
      by_cases hb : llm.suggestedColumns.contains c0.columnName
      · simp only [hb, if_pos] at hceq
        subst hceq; simp; omega
      · simp only [hb] at hceq
        simp at hceq
        subst hceq; exact h0
    · exact scoredColumnsOf_nonneg (mem_stableSortByScoreDesc.mp hc1)
  · intro t ht
    have ht1 := List.mem_of_mem_take ht
    rw [mem_stableSortByScoreDesc] at ht1
    have hbase : ∀ t' ∈ stableSortByScoreDesc (fun t : TableMapping => t.score)
        ((tableScoresOf (stableSortByScoreDesc (fun c : Column => c.score)
          (scoredColumnsOf cache userText))).map (fun e => TableMapping.mk e.1 e.2)),
        0 ≤ t'.score := by
      intro t' ht'
      rw [mem_stableSortByScoreDesc] at ht'
      obtain ⟨e, he, hteq⟩ := List.mem_map.mp ht'
      have := tableScoresOf_nonneg e he
      subst hteq; exact this
    split at ht1
    · obtain ⟨t0, ht0, hteq⟩ := List.mem_map.mp ht1
      have h0 : 0 ≤ t0.score := hbase t0 ht0
      by_cases hb : llm.suggestedTables.contains t0.tableName
      · simp only [hb, if_pos] at hteq
        subst hteq; simp; omega
      · simp only [hb] at hteq
        simp at hteq
        subst hteq; exact h0
    · exact hbase t ht1

/-- The accumulator of the table-name fold only grows. -/
theorem tableNamesFold_mono (cache : List SchemaColumn) (acc : List String) (x : String)
    (hx : x ∈ acc) :
    x ∈ cache.foldl (fun acc c =>
      if validSchemaCol c && !(acc.contains c.table_name) then acc ++ [c.table_name]
      else acc) acc := by
  induction cache generalizing acc with
  | nil => simpa using hx
  | cons c rest ih =>
    simp only [List.foldl_cons]
    apply ih
    split
    · exact List.mem_append_left _ hx
    · exact hx

/-- A valid cache row's table name ends up in the fold result. -/
theorem tableNamesFold_mem (cache : List SchemaColumn) (acc : List String)
    (c : SchemaColumn) (hc : c ∈ cache) (hv : validSchemaCol c = true) :
    c.table_name ∈ cache.foldl (fun acc c =>
      if validSchemaCol c && !(acc.contains c.table_name) then acc ++ [c.table_name]
      else acc) acc := by
  induction cache generalizing acc with
  | nil => simp at hc
  | cons d rest ih =>
    simp only [List.foldl_cons]
    rcases List.mem_cons.mp hc with h | h
    · subst h
      by_cases hmem : acc.contains c.table_name
      · apply tableNamesFold_mono
        split
        · exact List.mem_append_left _ (List.mem_of_elem_eq_true hmem)
        · exact List.mem_of_elem_eq_true hmem
      · have hcond : (validSchemaCol c && !(acc.contains c.table_name)) = true := by
          rw [hv]
          simp only [Bool.true_and, Bool.not_eq_true']
          exact Bool.not_eq_true _ ▸ (by simpa using hmem)
        rw [if_pos hcond]
        exact tableNamesFold_mono _ _ _ (by simp)
    · exact ih _ h

/-- A valid cache row's table name is in `tableNamesInOrder`. -/
theorem mem_tableNamesInOrder {cache : List SchemaColumn} {c : SchemaColumn}
    (hc : c ∈ cache) (hv : validSchemaCol c = true) :
    c.table_name ∈ tableNamesInOrder cache :=
  tableNamesFold_mem cache [] c hc hv

/-- A nonempty valid cache yields at least one scored column. -/
theorem scoredColumnsOf_ne_nil {cache : List SchemaColumn} {userText : String}
    (h : ∃ c ∈ cache, validSchemaCol c = true) :
    scoredColumnsOf cache userText ≠ [] := by
  obtain ⟨c, hc, hv⟩ := h
  refine List.ne_nil_of_mem (show Column.mk c.table_name c.column_name c.data_type
    (calculateColumnScore userText c) ∈ scoredColumnsOf cache userText from ?_)
  unfold scoredColumnsOf
  rw [List.mem_flatMap]
  refine ⟨c.table_name, mem_tableNamesInOrder hc hv, ?_⟩
  rw [List.mem_filterMap]
  refine ⟨c, ?_, ?_⟩
  · rw [List.mem_filter]
    exact ⟨hc, by simp [hv]⟩
  · have hge : calculateColumnScore userText c ≥ -10 := by
      have := calculateColumnScore_nonneg userText c
      omega
    simp [hge]

/-- `take n` of a nonempty list is nonempty for positive `n`. -/
theorem take3_ne_nil {l : List α} (h : l ≠ []) : l.take 3 ≠ [] := by
  cases l with
  | nil => simp at h
  | cons x xs => simp [List.take]

/-- A nonempty valid cache yields a nonempty table list in the mapping. -/
theorem mapping_tables_ne_nil (cache : List SchemaColumn) (llm : LLMAnalysis)
    (userText : String) (h : ∃ c ∈ cache, validSchemaCol c = true) :
    (mapUserQueryToSchema cache llm userText).tables ≠ [] := by
  unfold mapUserQueryToSchema
  simp only
  apply take3_ne_nil
  apply stableSortByScoreDesc_ne_nil
  have h1 : tableScoresOf (stableSortByScoreDesc (fun c : Column => c.score)
      (scoredColumnsOf cache userText)) ≠ [] :=
    tableScoresOf_ne_nil (stableSortByScoreDesc_ne_nil (scoredColumnsOf_ne_nil h))
  have h2 : (tableScoresOf (stableSortByScoreDesc (fun c : Column => c.score)
      (scoredColumnsOf cache userText))).map (fun e => TableMapping.mk e.1 e.2) ≠ [] := by
    intro hmap
    exact h1 (List.map_eq_nil_iff.mp hmap)
  have h3 := @stableSortByScoreDesc_ne_nil TableMapping (fun t : TableMapping => t.score) _ h2
  split
  · intro hmap
    exact h3 (List.map_eq_nil_iff.mp hmap)
  · exact h3

/-- The relevance-floor filter keeps the whole table list, so the
post-filter, post-slice table list of `generateQuery` is nonempty. -/
theorem relevantTables_ne_nil (cache : List SchemaColumn) (llm : LLMAnalysis)
    (userText : String) (h : ∃ c ∈ cache, validSchemaCol c = true) :
    (((mapUserQueryToSchema cache llm userText).tables.filter
      (fun t => t.score > -5)).take 3) ≠ [] := by
  apply take3_ne_nil
  have h1 := mapping_tables_ne_nil cache llm userText h
  obtain ⟨t, ht⟩ := List.exists_mem_of_ne_nil _ h1
  have h2 : 0 ≤ t.score := (mapUserQueryToSchema_nonneg cache llm userText).2 t ht
  exact List.ne_nil_of_mem (List.mem_filter.mpr ⟨ht, by simp; omega⟩)

/-- The mapper of an empty cache returns empty lists. -/
theorem mapUserQueryToSchema_nil (llm : LLMAnalysis) (userText : String) :
    mapUserQueryToSchema [] llm userText = ⟨[], []⟩ := by
  by_cases h1 : llm.suggestedTables = [] <;> by_cases h2 : llm.suggestedColumns = [] <;>
    simp [mapUserQueryToSchema, scoredColumnsOf, tableNamesInOrder, tableScoresOf,
      stableSortByScoreDesc, h1, h2]

/-- On a nonempty valid cache, `generateQuery` always returns a plan
(the "no relevant tables" throw is unreachable). -/
theorem generateQuery_isOk (now : Date) (cache : List SchemaColumn) (llm : LLMAnalysis)
    (userText : String) (h : ∃ c ∈ cache, validSchemaCol c = true) :
    (generateQuery now cache llm userText).isOk = true := by
  unfold generateQuery
  simp only
  have hne := relevantTables_ne_nil cache llm userText h
  rw [if_neg (by simpa [List.isEmpty_iff] using hne)]
  split <;> rfl

/-- C10: for every question text and every cataloged column, the
deterministic column score is a sum of nonnegative bonuses starting from
0, hence always `≥ 0`; consequently every column of a mapping passes the
`-10` retention threshold and the `-5` floor, and every derived table
score passes the `-5` relevance floor. -/
theorem c10_score_nonneg :
    (∀ (userText : String) (cm : SchemaColumn), 0 ≤ calculateColumnScore userText cm) ∧
    (∀ (cache : List SchemaColumn) (llm : LLMAnalysis) (userText : String),
      (∀ c ∈ (mapUserQueryToSchema cache llm userText).suggestedColumns,
        -10 ≤ c.score ∧ -5 < c.score) ∧
      (∀ t ∈ (mapUserQueryToSchema cache llm userText).tables, -5 < t.score)) := by
  refine ⟨calculateColumnScore_nonneg, fun cache llm userText => ⟨?_, ?_⟩⟩
  · intro c hc
    have := (mapUserQueryToSchema_nonneg cache llm userText).1 c hc
    omega
  · intro t ht
    have := (mapUserQueryToSchema_nonneg cache llm userText).2 t ht
    omega

/-- Witness for C10 at a concrete column and concrete mapping. -/
theorem c10_score_nonneg_witness :
    0 ≤ calculateColumnScore "asdf qwerty"
      ⟨"trips", "started_at", "timestamp without time zone", none⟩ ∧
    -5 < (TableMapping.mk "trips" 0).score := by
  constructor
  · exact c10_score_nonneg.1 "asdf qwerty" ⟨"trips", "started_at", "timestamp without time zone", none⟩
  · exact (c10_score_nonneg.2 bikeSchema fallbackLLM "asdf qwerty").2
      (TableMapping.mk "trips" 0) (by decide)

/-- C1 counterexample: the question "asdf qwerty" has no recognizable
vocabulary, yet against the (nonempty) schema catalog the translation
does NOT fail — every table scores 0, clears the `-5` floor, and a query
text is produced.  This contradicts the claim that zero tables clear the
relevance floor for such questions. -/
theorem c1_counterexample :
    (generateQuery now0 bikeSchema fallbackLLM "asdf qwerty").isOk = true ∧
    (generateQuery now0 bikeSchema fallbackLLM "asdf qwerty").toOption.map ParsedQuery.sql =
      some "SELECT t.trip_id, t.bike_id, t.start_station_id, t.end_station_id, t.started_at FROM trips t" := by
  constructor <;> rfl

/-- C1 (amended): the fatal "no relevant tables" error occurs exactly when
the schema catalog yields no valid scored column — in particular always on
an empty cache, and never on a cache with at least one valid row, whatever
the question text (every score is nonnegative, so every table clears the
`-5` floor). -/
theorem c1_no_relevant_tables :
    (∀ (now : Date) (llm : LLMAnalysis) (text : String),
      generateQuery now [] llm text = .error "No relevant tables found for the query") ∧
    (∀ (now : Date) (cache : List SchemaColumn) (llm : LLMAnalysis) (text : String),
      (∃ c ∈ cache, validSchemaCol c = true) →
      (generateQuery now cache llm text).isOk = true) := by
  constructor
  · intro now llm text
    unfold generateQuery
    rw [mapUserQueryToSchema_nil]
    rfl
  · exact fun now cache llm text h => generateQuery_isOk now cache llm text h

/-- Witness for C1 (amended) at concrete inputs: the empty cache fails,
and the bike-share cache succeeds even on "asdf qwerty". -/
theorem c1_no_relevant_tables_witness :
    generateQuery now0 [] fallbackLLM "asdf qwerty" =
      .error "No relevant tables found for the query" ∧
    (generateQuery now0 bikeSchema fallbackLLM "asdf qwerty").isOk = true :=
  ⟨c1_no_relevant_tables.1 now0 fallbackLLM "asdf qwerty",
   c1_no_relevant_tables.2 now0 bikeSchema fallbackLLM "asdf qwerty" (by decide)⟩

/-- C4: whenever the lowercased question contains "average", "congress
avenue" and one of "ride time"/"journey", `generateQuery` returns the
fixed hardcoded T-1 plan with parameters 2025-06-01/2025-07-01/"Congress
Avenue", regardless of the question's actual dates and of everything the
mapper and assemblers computed (nonempty valid cache assumed, since the
relevance check precedes the bypass). -/
theorem c4_t1_bypass (now : Date) (cache : List SchemaColumn) (llm : LLMAnalysis)
    (text : String)
    (hcache : ∃ c ∈ cache, validSchemaCol c = true)
    (h1 : sIncludes (jsLower text) "average" = true)
    (h2 : (sIncludes (jsLower text) "ride time" || sIncludes (jsLower text) "journey") = true)
    (h3 : sIncludes (jsLower text) "congress avenue" = true) :
    generateQuery now cache llm text = .ok t1Plan := by
  unfold generateQuery
  simp only
  rw [if_neg (by simpa [List.isEmpty_iff] using relevantTables_ne_nil cache llm text hcache)]
  rw [if_pos (by simp [isT1Query, h1, h2, h3])]

/-- Witness for C4: the question names July 2024, not June 2025, and still
receives the hardcoded June-2025 plan. -/
theorem c4_t1_bypass_witness :
    generateQuery now0 bikeSchema fallbackLLM
      "What was the average ride time for journeys that started at Congress Avenue in July 2024?" =
      .ok t1Plan ∧
    sIncludes (jsLower
      "What was the average ride time for journeys that started at Congress Avenue in July 2024?")
      "july 2024" = true :=
  ⟨c4_t1_bypass now0 bikeSchema fallbackLLM _ (by decide) (by decide) (by decide) (by decide),
   by decide⟩

/-- C5: a filter whose column mentions station/name (resp.
weather/precipitation) rendered while the stations (resp. daily_weather)
alias is absent from the alias map becomes the always-false condition
`1=0`; nothing is thrown (the renderer is total) and no parameter is
bound, so the parameter index is unchanged. -/
theorem c5_unresolvable_qualification :
    (∀ (am : AliasMap) (pa : String) (f : Filter) (idx : Nat),
      am.stations = none →
      (sIncludes f.column "station" || sIncludes f.column "name") = true →
      renderFilter am pa f idx = ("1=0", [], idx)) ∧
    (∀ (am : AliasMap) (pa : String) (f : Filter) (idx : Nat),
      am.dailyWeather = none →
      (sIncludes f.column "station" || sIncludes f.column "name") = false →
      (sIncludes f.column "weather" || sIncludes f.column "precipitation") = true →
      renderFilter am pa f idx = ("1=0", [], idx)) := by
  constructor
  · intro am pa f idx hst hcol
    simp [renderFilter, qualifyColumn, hcol, hst]
  · intro am pa f idx hdw hcol hw
    simp [renderFilter, qualifyColumn, hcol, hw, hdw]

/-- Witness for C5: a station-name equality with no stations join and a
precipitation filter with no weather join both render `1=0` binding
nothing. -/
theorem c5_unresolvable_qualification_witness :
    renderFilter ⟨none, none, none⟩ "t" ⟨"station_name", "=", .str "Congress Avenue"⟩ 1 =
      ("1=0", [], 1) ∧
    renderFilter ⟨some "s", none, none⟩ "t" ⟨"precipitation_mm", ">", .int 0⟩ 2 =
      ("1=0", [], 2) :=
  ⟨c5_unresolvable_qualification.1 ⟨none, none, none⟩ "t"
      ⟨"station_name", "=", .str "Congress Avenue"⟩ 1 rfl (by decide),
   c5_unresolvable_qualification.2 ⟨some "s", none, none⟩ "t"
      ⟨"precipitation_mm", ">", .int 0⟩ 2 rfl (by decide) (by decide)⟩

/-- C6 counterexample: "How many km/h?" contains speed vocabulary
(`km/h`), yet the aggregation assembler emits a `COUNT(*)` aggregation
and no `SPEED` aggregation at all — the earlier "how many" branch of the
cascade preempts the speed branch, refuting the claim that every
speed-vocabulary question yields a synthetic `SPEED` aggregation. -/
theorem c6_counterexample :
    speedVocab (jsLower "How many km/h?") = true ∧
    parseAggregations "How many km/h?" [] = [⟨"COUNT", "*", "total_count"⟩] ∧
    (parseAggregations "How many km/h?" []).all
      (fun a => a.function ≠ "SPEED") = true := by
  refine ⟨by decide, by decide, by decide⟩

/-- C6 (amended): when none of the earlier cascade branches fires
(distance, ranking, count, total-rides, daily-totals, top-by-average,
age — note "average" contains "age" — weekend departures, top-3
distance, most-arrivals, distance-by-end-station, busiest-by-starts,
rides-last-month, rainy-weekdays) and the independent duration rule does
not fire either, a question with speed vocabulary makes the assembler
emit exactly the synthetic `SPEED` aggregation and return it, so no
later generic-average or purchase branch can run. -/
theorem c6_speed_aggregation (text : String) (columns : List Column)
    (h0 : aggCondDuration (jsLower text) = false)
    (h1 : aggCondDistance (jsLower text) = false)
    (h2 : aggCondRanking (jsLower text) = false)
    (h3 : aggCondHowMany (jsLower text) = false)
    (h4 : aggCondTotalRides (jsLower text) = false)
    (h5 : aggCondDailyTotals (jsLower text) = false)
    (h6 : aggCondTopByAvg (jsLower text) = false)
    (h7 : aggCondAge (jsLower text) = false)
    (h8 : aggCondWeekendDep (jsLower text) = false)
    (h9 : aggCondTop3Dist (jsLower text) = false)
    (h10 : aggCondMostArrivals (jsLower text) = false)
    (h11 : aggCondDistByEnd (jsLower text) = false)
    (h12 : aggCondBusiestByStarts (jsLower text) = false)
    (h13 : aggCondRidesLastMonth (jsLower text) = false)
    (h14 : aggCondRainyWeekdays (jsLower text) = false)
    (hs : speedVocab (jsLower text) = true) :
    parseAggregations text columns = [⟨"SPEED", "speed_calculated", "average_speed_kmh"⟩] := by
  unfold parseAggregations
  simp only [h0, h1, h2, h3, h4, h5, h6, h7, h8, h9, h10, h11, h12, h13, h14, hs,
    if_false, if_true, Bool.false_eq_true, List.nil_append]

/-- Witness for C6 (amended) at a concrete speed question that reaches
the speed branch. -/
theorem c6_speed_aggregation_witness :
    parseAggregations "speed of trips in june 2025" [] =
      [⟨"SPEED", "speed_calculated", "average_speed_kmh"⟩] :=
  c6_speed_aggregation "speed of trips in june 2025" [] (by decide) (by decide) (by decide)
    (by decide) (by decide) (by decide) (by decide) (by decide) (by decide) (by decide)
    (by decide) (by decide) (by decide) (by decide) (by decide) (by decide)

/-- C3 (code bug): the question "Which docking point saw the most
departures?" is a grouped top-k question with no date phrase.  The
invariant-check condition of source lines 906–912 holds (grouped top-k
with no `started_at` filter), but the code only logs a CRITICAL error —
it still produces a plan, and the produced plan carries no date filter at
all, contradicting the spec's "must fail an invariant check rather than
producing a plan". -/
theorem c3_invariant_check_does_not_fail :
    isGroupTopKQuery (jsLower "Which docking point saw the most departures?") = true ∧
    (generateQuery now0 bikeSchema fallbackLLM
      "Which docking point saw the most departures?").isOk = true ∧
    (generateQuery now0 bikeSchema fallbackLLM
      "Which docking point saw the most departures?").toOption.map
      (fun p => groupTopKMissingDateFilter
        (jsLower "Which docking point saw the most departures?") p.filters) = some true ∧
    (generateQuery now0 bikeSchema fallbackLLM
      "Which docking point saw the most departures?").toOption.map
      (fun p => p.filters.any (fun f => sIncludes f.column "started_at")) = some false := by
  refine ⟨by decide, by rfl, by rfl, by rfl⟩

/-- A filter in `applyLastDay`'s output either came from the input or is
one of the two appended last-day date bounds on `started_at` (ops `>=`
and `<`). -/
theorem applyLastDay_cases {tl : String} {fs : List Filter} {f : Filter}
    (hf : f ∈ applyLastDay tl fs) :
    f ∈ fs ∨ (f.column = "started_at" ∧ (f.operator = ">=" ∨ f.operator = "<")) := by
  unfold applyLastDay at hf
  split at hf
  · split at hf
    · rcases List.mem_append.mp hf with h | h
      · exact Or.inl (List.mem_of_mem_filter h)
      · simp only [List.mem_cons, List.not_mem_nil, or_false] at h
        rcases h with h | h <;> subst h <;> simp
    · exact Or.inl hf
  · exact Or.inl hf

/-- A filter not on a started/ended column survives `applyLastDay`. -/
theorem applyLastDay_keeps {tl : String} {fs : List Filter} {f : Filter}
    (hf : f ∈ fs) (h1 : sIncludes f.column "started_at" = false)
    (h2 : sIncludes f.column "ended_at" = false) :
    f ∈ applyLastDay tl fs := by
  unfold applyLastDay
  split
  · split
    · apply List.mem_append_left
      rw [List.mem_filter]
      exact ⟨hf, by simp [h1, h2]⟩
    · exact hf
  · exact hf

/-- Date filters are `>=`/`<` comparisons, never gender equalities. -/
theorem noFemEq_dateFiltersOf (now : Date) (text tl : String) (cols : List Column)
    (pt : String) :
    ∀ f ∈ dateFiltersOf now text tl cols pt,
      ¬(f.operator = "=" ∧ f.value = FilterValue.str "female") := by
  intro f hf
  unfold dateFiltersOf at hf
  split at hf
  · simp at hf
  · split at hf
    · simp at hf
    · simp only [List.mem_cons, List.not_mem_nil, or_false] at hf
      rcases hf with h | h <;> subst h <;> simp

/-- Without women vocabulary the gender rule emits no `'female'` equality. -/
theorem noFemEq_genderFiltersOf (tl : String) (cols : List Column)
    (hw1 : sIncludes tl "women" = false) (hw2 : sIncludes tl "female" = false)
    (hw3 : sIncludes tl "woman" = false) :
    ∀ f ∈ genderFiltersOf tl cols,
      ¬(f.operator = "=" ∧ f.value = FilterValue.str "female") := by
  intro f hf
  unfold genderFiltersOf at hf
  rw [if_neg (by simp [hw1, hw2, hw3])] at hf
  split at hf
  · split at hf
    · simp only [List.mem_singleton] at hf; subst hf; simp
    · simp at hf
  · simp at hf

/-- The location rule only equality-matches `'Congress Avenue'`. -/
theorem noFemEq_locationFiltersOf (tl : String) (cols : List Column) :
    ∀ f ∈ locationFiltersOf tl cols,
      ¬(f.operator = "=" ∧ f.value = FilterValue.str "female") := by
  intro f hf
  unfold locationFiltersOf at hf
  split at hf
  · split at hf
    · simp only [List.mem_singleton] at hf
      subst hf
      rintro ⟨-, hv⟩
      have hv' : FilterValue.str "Congress Avenue" = FilterValue.str "female" := hv
      exact absurd hv' (by decide)
    · simp at hf
  · simp at hf

/-- The weather, temperature, age, weekend/weekday and dimension rules
never emit a `'female'` string equality (their `=` values are numbers and
their other operators are not `=`). -/
theorem noFemEq_restFiltersOf (tl : String) :
    (∀ f ∈ rainyFiltersOf tl, ¬(f.operator = "=" ∧ f.value = FilterValue.str "female")) ∧
    (∀ f ∈ numericWeatherFiltersOf tl,
      ¬(f.operator = "=" ∧ f.value = FilterValue.str "female")) ∧
    (∀ f ∈ dryFiltersOf tl, ¬(f.operator = "=" ∧ f.value = FilterValue.str "female")) ∧
    (∀ f ∈ tempFiltersOf tl, ¬(f.operator = "=" ∧ f.value = FilterValue.str "female")) ∧
    (∀ f ∈ ageFiltersOf tl, ¬(f.operator = "=" ∧ f.value = FilterValue.str "female")) ∧
    (∀ f ∈ weekendFiltersOf tl, ¬(f.operator = "=" ∧ f.value = FilterValue.str "female")) ∧
    (∀ f ∈ weekdayFiltersOf tl, ¬(f.operator = "=" ∧ f.value = FilterValue.str "female")) ∧
    (∀ f ∈ dimensionFiltersOf tl,
      ¬(f.operator = "=" ∧ f.value = FilterValue.str "female")) := by
  refine ⟨?_, ?_, ?_, ?_, ?_, ?_, ?_, ?_⟩ <;> intro f hf
  · unfold rainyFiltersOf at hf
    split at hf
    · simp only [List.mem_singleton] at hf; subst hf; simp
    · simp at hf
  · unfold numericWeatherFiltersOf at hf
    split at hf
    · split at hf
      · simp only [List.mem_singleton] at hf; subst hf; simp
      · simp at hf
    · simp at hf
  · unfold dryFiltersOf at hf
    split at hf
    · simp only [List.mem_singleton] at hf; subst hf; simp
    · simp at hf
  · unfold tempFiltersOf at hf
    split at hf
    · simp only [List.mem_singleton] at hf; subst hf; simp
    · split at hf
      · simp only [List.mem_singleton] at hf; subst hf; simp
      · simp at hf
  · unfold ageFiltersOf at hf
    split at hf
    · split at hf
      · split at hf
        · simp only [List.mem_singleton] at hf; subst hf; simp
        · split at hf
          · simp only [List.mem_singleton] at hf; subst hf; simp
          · simp at hf
      · simp at hf
    · simp at hf
  · unfold weekendFiltersOf at hf
    split at hf
    · simp only [List.mem_singleton] at hf; subst hf; simp
    · simp at hf
  · unfold weekdayFiltersOf at hf
    split at hf
    · simp only [List.mem_singleton] at hf; subst hf; simp
    · simp at hf
  · unfold dimensionFiltersOf at hf
    split at hf
    · split at hf
      · simp only [List.mem_singleton] at hf; subst hf; simp
      · split at hf
        · simp only [List.mem_singleton] at hf; subst hf; simp
        · split at hf
          · simp only [List.mem_singleton] at hf; subst hf; simp
          · split at hf
            · simp only [List.mem_singleton] at hf; subst hf; simp
            · split at hf
              · simp only [List.mem_singleton] at hf; subst hf; simp
              · simp at hf
    · simp at hf

/-- Without women vocabulary, no filter of the whole assembler is a
`'female'` equality. -/
theorem noFemEq_parseFilters (now : Date) (text : String) (cols : List Column)
    (pt : String)
    (hw1 : sIncludes (jsLower text) "women" = false)
    (hw2 : sIncludes (jsLower text) "female" = false)
    (hw3 : sIncludes (jsLower text) "woman" = false) :
    ∀ f ∈ parseFilters now text cols pt,
      ¬(f.operator = "=" ∧ f.value = FilterValue.str "female") := by
  intro f hf
  unfold parseFilters at hf
  split at hf
  · simp at hf
  · rcases List.mem_append.mp hf with hb | hd
    · rcases applyLastDay_cases hb with hb' | ⟨-, hop | hop⟩
      · rcases List.mem_append.mp hb' with h | h
        rotate_left
        · exact (noFemEq_restFiltersOf _).2.2.2.2.2.2.1 f h
        rcases List.mem_append.mp h with h | h
        rotate_left
        · exact (noFemEq_restFiltersOf _).2.2.2.2.2.1 f h
        rcases List.mem_append.mp h with h | h
        rotate_left
        · exact (noFemEq_restFiltersOf _).2.2.2.2.1 f h
        rcases List.mem_append.mp h with h | h
        rotate_left
        · exact (noFemEq_restFiltersOf _).2.2.2.1 f h
        rcases List.mem_append.mp h with h | h
        rotate_left
        · exact (noFemEq_restFiltersOf _).2.2.1 f h
        rcases List.mem_append.mp h with h | h
        rotate_left
        · exact (noFemEq_restFiltersOf _).2.1 f h
        rcases List.mem_append.mp h with h | h
        rotate_left
        · exact (noFemEq_restFiltersOf _).1 f h
        rcases List.mem_append.mp h with h | h
        rotate_left
        · exact noFemEq_locationFiltersOf _ cols f h
        rcases List.mem_append.mp h with h | h
        · exact noFemEq_dateFiltersOf now text _ cols pt f h
        · exact noFemEq_genderFiltersOf _ cols hw1 hw2 hw3 f h
      · rintro ⟨he, -⟩; rw [hop] at he; exact absurd he (by decide)
      · rintro ⟨he, -⟩; rw [hop] at he; exact absurd he (by decide)
    · exact (noFemEq_restFiltersOf _).2.2.2.2.2.2.2 f hd

/-- C7: a question with women vocabulary makes the filter assembler emit
an equality predicate with literal `'female'` on the first
character-typed gender column of the trips table; a question with men
vocabulary and none of the women tokens makes it emit the
case-insensitive pattern predicate `ILIKE '%male%'` on the first
gender/rider column of the trips table and never any `'female'` equality
predicate. -/
theorem c7_gender_filters :
    (∀ (now : Date) (text : String) (cols : List Column) (pt : String) (g : Column)
        (gs : List Column),
      text ≠ "" →
      (sIncludes (jsLower text) "women" || sIncludes (jsLower text) "female" ||
        sIncludes (jsLower text) "woman") = true →
      cols.filter isWomenGenderCol = g :: gs →
      sIncludes g.columnName "started_at" = false →
      sIncludes g.columnName "ended_at" = false →
      g ∈ cols ∧ g.tableName = "trips" ∧
        sIncludes (jsLower g.columnName) "gender" = true ∧
        Filter.mk g.columnName "=" (.str "female") ∈ parseFilters now text cols pt) ∧
    (∀ (now : Date) (text : String) (cols : List Column) (pt : String) (g : Column)
        (gs : List Column),
      text ≠ "" →
      sIncludes (jsLower text) "women" = false →
      sIncludes (jsLower text) "female" = false →
      sIncludes (jsLower text) "woman" = false →
      (sIncludes (jsLower text) "men" || sIncludes (jsLower text) "male") = true →
      cols.filter isMenGenderCol = g :: gs →
      sIncludes g.columnName "started_at" = false →
      sIncludes g.columnName "ended_at" = false →
      Filter.mk g.columnName "ILIKE" (.str "%male%") ∈ parseFilters now text cols pt ∧
      ∀ f ∈ parseFilters now text cols pt,
        ¬(f.operator = "=" ∧ f.value = FilterValue.str "female")) := by
  constructor
  · intro now text cols pt g gs htext hw hfilter hs1 hs2
    have hgmem : g ∈ cols.filter isWomenGenderCol := by
      rw [hfilter]; exact List.mem_cons_self _ _
    have hgprops := List.mem_filter.mp hgmem
    have hp := hgprops.2
    simp only [isWomenGenderCol, Bool.and_eq_true, beq_iff_eq] at hp
    refine ⟨hgprops.1, hp.2, hp.1.1, ?_⟩
    have hgEq : genderFiltersOf (jsLower text) cols =
        [Filter.mk g.columnName "=" (.str "female")] := by
      unfold genderFiltersOf
      rw [if_pos (by simpa using hw), hfilter]
    unfold parseFilters
    rw [if_neg (by simpa using htext)]
    apply List.mem_append_left
    apply applyLastDay_keeps _ hs1 hs2
    apply List.mem_append_left
    apply List.mem_append_left
    apply List.mem_append_left
    apply List.mem_append_left
    apply List.mem_append_left
    apply List.mem_append_left
    apply List.mem_append_left
    apply List.mem_append_left
    apply List.mem_append_right
    rw [hgEq]
    exact List.mem_cons_self _ _
  · intro now text cols pt g gs htext hw1 hw2 hw3 hm hfilter hs1 hs2
    constructor
    · have hgEq : genderFiltersOf (jsLower text) cols =
          [Filter.mk g.columnName "ILIKE" (.str "%male%")] := by
        unfold genderFiltersOf
        rw [if_neg (by simp [hw1, hw2, hw3]), if_pos (by simpa using hm), hfilter]
      unfold parseFilters
      rw [if_neg (by simpa using htext)]
      apply List.mem_append_left
      apply applyLastDay_keeps _ hs1 hs2
      apply List.mem_append_left
      apply List.mem_append_left
      apply List.mem_append_left
      apply List.mem_append_left
      apply List.mem_append_left
      apply List.mem_append_left
      apply List.mem_append_left
      apply List.mem_append_left
      apply List.mem_append_right
      rw [hgEq]
      exact List.mem_cons_self _ _
    · exact noFemEq_parseFilters now text cols pt hw1 hw2 hw3

/-- Witness for C7 at the repository's schema columns: the T-3 women
question emits the `rider_gender = 'female'` equality, and a men question
emits the `ILIKE '%male%'` pattern with no `'female'` equality anywhere. -/
theorem c7_gender_filters_witness :
    (Filter.mk "rider_gender" "=" (.str "female") ∈
      parseFilters now0 "How many kilometres were ridden by women on rainy days in June 2025?"
        [⟨"trips", "rider_gender", "character varying", 0⟩] "trips") ∧
    (Filter.mk "rider_gender" "ILIKE" (.str "%male%") ∈
      parseFilters now0 "How many trips by men in June 2025?"
        [⟨"trips", "rider_gender", "character varying", 0⟩] "trips") := by
  constructor
  · exact (c7_gender_filters.1 now0
      "How many kilometres were ridden by women on rainy days in June 2025?"
      [⟨"trips", "rider_gender", "character varying", 0⟩] "trips"
      ⟨"trips", "rider_gender", "character varying", 0⟩ []
      (by decide) (by decide) (by decide) (by decide) (by decide)).2.2.2
  · exact ((c7_gender_filters.2 now0 "How many trips by men in June 2025?"
      [⟨"trips", "rider_gender", "character varying", 0⟩] "trips"
      ⟨"trips", "rider_gender", "character varying", 0⟩ []
      (by decide) (by decide) (by decide) (by decide) (by decide) (by decide)
      (by decide) (by decide)).1)

/-- The chosen date column is either a mapped column or the fabricated
trips start column. -/
theorem dateColumnOf_cases {tl : String} {cols : List Column} {pt : String} {dc : Column}
    (h : dateColumnOf tl cols pt = some dc) :
    dc ∈ cols ∨ dc = forcedStartedAt := by
  unfold dateColumnOf at h
  split at h
  · rename_i c hc
    cases h
    unfold dateColumnPrimary at hc
    split at hc
    · rename_i c' hc'
      cases hc
      unfold dateColumnOverride at hc'
      split at hc'
      · split at hc'
        · cases hc'
          exact Or.inl (List.mem_of_find?_eq_some (by assumption))
        · cases hc'
          exact Or.inr rfl
      · split at hc'
        · exact Or.inl (List.mem_of_find?_eq_some hc')
        · cases hc'
    · exact Or.inl (List.mem_of_find?_eq_some hc)
  · exact Or.inl (List.mem_of_find?_eq_some h)

/-- No filter emitted by the assembler has a `group_by_` column when the
question has no "by dimension" phrase and no mapped column is named that
way (the grouping carriers are the only `group_by_` producers). -/
theorem noGroupBy_parseFilters (now : Date) (text : String) (cols : List Column)
    (pt : String)
    (hdim : byDimensionMatch (jsLower text) = none)
    (hcols : ∀ c ∈ cols, sStartsWith c.columnName "group_by_" = false) :
    ∀ f ∈ parseFilters now text cols pt, sStartsWith f.column "group_by_" = false := by
  intro f hf
  unfold parseFilters at hf
  split at hf
  · simp at hf
  · rcases List.mem_append.mp hf with hb | hd
    · rcases applyLastDay_cases hb with hb' | ⟨hcol, -⟩
      · rcases List.mem_append.mp hb' with h | h
        rotate_left
        · unfold weekdayFiltersOf at h
          split at h
          · simp only [List.mem_singleton] at h; subst h; decide
          · simp at h
        rcases List.mem_append.mp h with h | h
        rotate_left
        · unfold weekendFiltersOf at h
          split at h
          · simp only [List.mem_singleton] at h; subst h; decide
          · simp at h
        rcases List.mem_append.mp h with h | h
        rotate_left
        · unfold ageFiltersOf at h
          split at h
          · split at h
            · split at h
              · simp only [List.mem_singleton] at h; subst h
                exact (by decide : sStartsWith "rider_birth_year" "group_by_" = false)
              · split at h
                · simp only [List.mem_singleton] at h; subst h
                  exact (by decide : sStartsWith "rider_birth_year" "group_by_" = false)
                · simp at h
            · simp at h
          · simp at h
        rcases List.mem_append.mp h with h | h
        rotate_left
        · unfold tempFiltersOf at h
          split at h
          · simp only [List.mem_singleton] at h; subst h
            exact (by decide : sStartsWith "high_temp_c" "group_by_" = false)
          · split at h
            · simp only [List.mem_singleton] at h; subst h
              exact (by decide : sStartsWith "low_temp_c" "group_by_" = false)
            · simp at h
        rcases List.mem_append.mp h with h | h
        rotate_left
        · unfold dryFiltersOf at h
          split at h
          · simp only [List.mem_singleton] at h; subst h; decide
          · simp at h
        rcases List.mem_append.mp h with h | h
        rotate_left
        · unfold numericWeatherFiltersOf at h
          split at h
          · split at h
            · simp only [List.mem_singleton] at h; subst h
              exact (by decide : sStartsWith "precipitation_mm" "group_by_" = false)
            · simp at h
          · simp at h
        rcases List.mem_append.mp h with h | h
        rotate_left
        · unfold rainyFiltersOf at h
          split at h
          · simp only [List.mem_singleton] at h; subst h; decide
          · simp at h
        rcases List.mem_append.mp h with h | h
        rotate_left
        · unfold locationFiltersOf at h
          split at h
          · split at h
            · rename_i s rest heq
              simp only [List.mem_singleton] at h
              subst h
              have hs : s ∈ cols.filter (fun col =>
                  sIncludes (jsLower col.columnName) "station" &&
                  sIncludes col.dataType "character" && col.tableName == "stations") := by
                rw [heq]; exact List.mem_cons_self _ _
              exact hcols s (List.mem_of_mem_filter hs)
            · simp at h
          · simp at h
        rcases List.mem_append.mp h with h | h
        · unfold dateFiltersOf at h
          split at h
          · simp at h
          · split at h
            · simp at h
            · rename_i dc hdc
              simp only [List.mem_cons, List.not_mem_nil, or_false] at h
              rcases dateColumnOf_cases hdc with hmem | hforced
              · rcases h with h | h <;> subst h <;> exact hcols dc hmem
              · rcases h with h | h <;> subst h <;> rw [hforced] <;>
                  exact (by decide : sStartsWith "started_at" "group_by_" = false)
        · unfold genderFiltersOf at h
          split at h
          · split at h
            · rename_i g rest heq
              simp only [List.mem_singleton] at h
              subst h
              have hg : g ∈ cols.filter isWomenGenderCol := by
                rw [heq]; exact List.mem_cons_self _ _
              exact hcols g (List.mem_of_mem_filter hg)
            · simp at h
          · split at h
            · split at h
              · rename_i g rest heq
                simp only [List.mem_singleton] at h
                subst h
                have hg : g ∈ cols.filter isMenGenderCol := by
                  rw [heq]; exact List.mem_cons_self _ _
                exact hcols g (List.mem_of_mem_filter hg)
              · simp at h
            · simp at h
      · rw [hcol]; decide
    · unfold dimensionFiltersOf at hd
      rw [hdim] at hd
      simp at hd

/-- C2 (amended): for a question with no ranking vocabulary ("most",
"highest", "busiest", "which …", "top …"), no "by dimension" grouping
phrase, no advisory grouping dimensions, and no mapped column named
`group_by_…`, the assembled plan has an empty GROUP BY clause, an empty
ORDER BY clause and an empty LIMIT clause — whatever the schema, primary
table and aggregation list are. -/
theorem c2_scalar_no_clauses (now : Date) (text : String) (llm : LLMAnalysis)
    (primaryTable : String) (tbls : List TableMapping) (cols : List Column)
    (aggs : List Aggregation)
    (h1 : sIncludes (jsLower text) "most" = false)
    (h2 : sIncludes (jsLower text) "highest" = false)
    (h3 : sIncludes (jsLower text) "busiest" = false)
    (h4 : sIncludes (jsLower text) "which" = false)
    (h5 : sIncludes (jsLower text) "top" = false)
    (h6 : topMatch (jsLower text) = none)
    (h7 : byDimensionMatch (jsLower text) = none)
    (h8 : llm.groupingDimensions = [])
    (h9 : ∀ c ∈ cols, sStartsWith c.columnName "group_by_" = false) :
    (buildSQLQuery primaryTable tbls cols aggs
      (parseFilters now text cols primaryTable) text llm).groupByClause = "" ∧
    (buildSQLQuery primaryTable tbls cols aggs
      (parseFilters now text cols primaryTable) text llm).orderByClause = "" ∧
    (buildSQLQuery primaryTable tbls cols aggs
      (parseFilters now text cols primaryTable) text llm).limitClause = "" := by
  have hrank : isRankingSelect (jsLower text) = false := by
    simp [isRankingSelect, h1, h2, h3, h4]
  have hgf : (parseFilters now text cols primaryTable).filter
      (fun f => sStartsWith f.column "group_by_") = [] := by
    rw [List.filter_eq_nil_iff]
    intro f hf
    simp [noGroupBy_parseFilters now text cols primaryTable h7 h9 f hf]
  refine ⟨?_, ?_, ?_⟩
  · show groupByClauseOf (jsLower text) primaryTable (getTableAlias primaryTable) cols aggs
      (parseFilters now text cols primaryTable) (buildJoins primaryTable
        (getTableAlias primaryTable) (jsLower text)
        (parseFilters now text cols primaryTable) llm).aliasMap llm = ""
    unfold groupByClauseOf
    rw [if_neg (by simp [h8])]
    unfold groupByClauseBase
    rw [hgf]
    cases aggs with
    | nil => rfl
    | cons a rest => simp [hrank]
  · show orderByClauseOf (jsLower text) aggs = ""
    unfold orderByClauseOf
    cases aggs with
    | nil => rfl
    | cons a rest => simp [isRankingOrder, hrank, h5]
  · show limitClauseOf (jsLower text) = ""
    unfold limitClauseOf
    rw [h6]
    simp [h1, h2, h3, h4]

/-- Witness for C2 (amended) at the T-3 scalar question: a realistic
column set and the `SUM` aggregation produce a plan with no GROUP
BY/ORDER BY/LIMIT. -/
theorem c2_scalar_no_clauses_witness :
    (buildSQLQuery "trips" [] [⟨"trips", "trip_distance_km", "numeric", 200⟩,
        ⟨"trips", "started_at", "timestamp without time zone", 40⟩]
      [⟨"SUM", "trip_distance_km", "total_kilometres"⟩]
      (parseFilters now0 "How many kilometres were ridden by women on rainy days in June 2025?"
        [⟨"trips", "trip_distance_km", "numeric", 200⟩,
         ⟨"trips", "started_at", "timestamp without time zone", 40⟩] "trips")
      "How many kilometres were ridden by women on rainy days in June 2025?"
      fallbackLLM).groupByClause = "" :=
  (c2_scalar_no_clauses now0
    "How many kilometres were ridden by women on rainy days in June 2025?" fallbackLLM
    "trips" [] [⟨"trips", "trip_distance_km", "numeric", 200⟩,
      ⟨"trips", "started_at", "timestamp without time zone", 40⟩]
    [⟨"SUM", "trip_distance_km", "total_kilometres"⟩]
    (by decide) (by decide) (by decide) (by decide) (by decide) (by decide) (by decide)
    rfl (by decide)).1

/-- C2 counterexample: "sum distance by end station in june 2025" has no
ranking vocabulary and is classified as a scalar aggregation by the
assembler, yet the emitted SQL text contains a GROUP BY clause (the
"by end station" grouping phrase produces one without any ranking
vocabulary). -/
theorem c2_counterexample :
    isScalarAggregation (jsLower "sum distance by end station in june 2025") = true ∧
    sIncludes (jsLower "sum distance by end station in june 2025") "most" = false ∧
    sIncludes (jsLower "sum distance by end station in june 2025") "highest" = false ∧
    sIncludes (jsLower "sum distance by end station in june 2025") "busiest" = false ∧
    sIncludes (jsLower "sum distance by end station in june 2025") "which" = false ∧
    sIncludes (jsLower "sum distance by end station in june 2025") "top" = false ∧
    (generateQuery now0 bikeSchema fallbackLLM
      "sum distance by end station in june 2025").toOption.map
      (fun p => sIncludes p.sql "GROUP BY") = some true := by
  refine ⟨by decide, by decide, by decide, by decide, by decide, by decide, by rfl⟩

/-- `indexOf` returns `-1` or an index within the list's bounds. -/
theorem indexOfAux_bound (x : String) (l : List String) (i : Int) :
    indexOfAux x l i = -1 ∨
      (i ≤ indexOfAux x l i ∧ indexOfAux x l i < i + l.length) := by
  induction l generalizing i with
  | nil => exact Or.inl rfl
  | cons a as ih =>
    simp only [indexOfAux]
    split
    · right
      simp only [List.length_cons]
      omega
    · rcases ih (i + 1) with h | h
      · exact Or.inl h
      · right
        simp only [List.length_cons] at h ⊢
        omega

/-- A month name accepted by `getMonthIndex` yields an index in `[0, 12)`. -/
theorem getMonthIndex_bound (m : String) (h : getMonthIndex m ≠ -1) :
    0 ≤ getMonthIndex m ∧ getMonthIndex m < 12 := by
  have hb := indexOfAux_bound (jsLower m) monthsList 0
  have hl : (monthsList.length : Int) = 12 := rfl
  unfold getMonthIndex at h ⊢
  rcases hb with hb | hb
  · exact absurd hb h
  · omega

/-- Every month has at least one day. -/
theorem daysInMonth_pos (y : Int) (m : Nat) : 1 ≤ daysInMonth y m := by
  unfold daysInMonth
  split
  · split <;> norm_num
  all_goals norm_num

/-- `mkDate` on day 1 of an in-range month of a 3-plus-digit year is the
plain calendar day (no two-digit-year quirk, no normalization). -/
theorem mkDate_day1 (y mi : Int) (hy : 100 ≤ y) (h0 : 0 ≤ mi) (h12 : mi < 12) :
    mkDate y mi 1 = ⟨y, mi.toNat, 1⟩ := by
  have hfd : mi / 12 = 0 := by omega
  have hme : mi % 12 = mi := by omega
  simp only [mkDate]
  rw [if_neg (by omega : ¬((0:Int) ≤ y ∧ y ≤ 99)), hfd, hme]
  rw [if_pos ⟨le_refl 1, by have := daysInMonth_pos (y + 0) mi.toNat; omega⟩]
  simp

/-- `mkDate` with month argument 12 rolls over to January of the next
year. -/
theorem mkDate_day1_roll (y : Int) (hy : 100 ≤ y) : mkDate y 12 1 = ⟨y + 1, 0, 1⟩ := by
  have hfd : (12:Int) / 12 = 1 := by decide
  have hme : (12:Int) % 12 = 0 := by decide
  simp only [mkDate]
  rw [if_neg (by omega : ¬((0:Int) ≤ y ∧ y ≤ 99)), hfd, hme]
  rw [if_pos ⟨le_refl 1, by have := daysInMonth_pos (y + 1) ((0:Int)).toNat; omega⟩]
  simp

/-- `daysFromCivil` on a nonnegative shifted year takes the `Nat` branch. -/
theorem daysFromCivil_nonneg_eq (dt : Date) (h : 0 ≤ yShiftOf dt) :
    daysFromCivil dt = daysNonneg (yShiftOf dt).toNat (doyOf dt) := by
  unfold daysFromCivil
  rw [if_pos h]

/-- Arithmetic characterization of the leap-year test. -/
theorem isLeap_iff (y : Int) :
    isLeap y = true ↔ (y % 4 = 0 ∧ y % 100 ≠ 0) ∨ y % 400 = 0 := by
  unfold isLeap
  simp

set_option maxHeartbeats 1000000 in
/-- The distance from the first of a month to the first of the next month
is the month's length. -/
theorem monthLength (y : Int) (m : Nat) (hy : 100 ≤ y) (hm : m < 12) :
    daysFromCivil (firstOfNextMonth y m) - daysFromCivil (firstOfMonth y m) =
      (daysInMonth y m : Int) := by
  have hs : ∀ m' : Nat, 0 ≤ yShiftOf (firstOfMonth y m') := by
    intro m'
    unfold firstOfMonth yShiftOf
    dsimp only
    split <;> omega
  have hn : ∀ m' : Nat, 0 ≤ yShiftOf (firstOfNextMonth y m') := by
    intro m'
    unfold firstOfNextMonth yShiftOf
    split <;> (dsimp only; split <;> omega)
  rw [daysFromCivil_nonneg_eq _ (hn m), daysFromCivil_nonneg_eq _ (hs m)]
  interval_cases m <;>
    norm_num [firstOfMonth, firstOfNextMonth, yShiftOf, doyOf, mpOf, daysNonneg, daysInMonth] <;>
    first
      | omega
      | (by_cases hc : isLeap y = true
         · rw [if_pos hc]; rw [isLeap_iff] at hc; omega
         · rw [if_neg hc]; rw [isLeap_iff] at hc; omega)

/-- C8 counterexample: the bare month/year phrase "june 0012" has the
valid month name "june" and year 12, yet the resolver returns the
interval `[1912-06-01, 1912-07-01)` rather than the first of June of
year 12 — `parseInt("0012") = 12` falls into the JS `Date` two-digit-year
range and is mapped to 1912. -/
theorem c8_counterexample :
    monthYearMatch (jsLower "june 0012") = some ("june", 12) ∧
    getMonthIndex "june" ≠ -1 ∧
    parseDateExpressions now0 "june 0012" = some ⟨"1912-06-01", "1912-07-01"⟩ ∧
    toISODate (firstOfMonth 12 5) = "0012-06-01" ∧
    toISODate (firstOfNextMonth 12 5) = "0012-07-01" ∧
    parseDateExpressions now0 "june 0012" ≠
      some ⟨toISODate (firstOfMonth 12 5), toISODate (firstOfNextMonth 12 5)⟩ := by
  refine ⟨by decide, by decide, by decide, by decide, by decide, by decide⟩

/-- C8 (amended): for a bare month/year phrase reaching the month-year
branch (no "first week of"/"between" match) with a valid month name and
a year of at least 100 (so the JS two-digit-year quirk does not fire),
the resolver returns the half-open interval from the first day of the
month to the first day of the following month, and that interval's
length in days equals the number of days of the month. -/
theorem c8_bare_month_year (now : Date) (text m : String) (y : Nat)
    (h0 : text ≠ "")
    (h1 : firstWeekMatch (jsLower text) = none)
    (h2 : betweenMatch (jsLower text) = none)
    (h3 : monthYearMatch (jsLower text) = some (m, y))
    (h4 : getMonthIndex m ≠ -1)
    (hy : 100 ≤ y) :
    parseDateExpressions now text =
      some ⟨toISODate (firstOfMonth (y : Int) (getMonthIndex m).toNat),
            toISODate (firstOfNextMonth (y : Int) (getMonthIndex m).toNat)⟩ ∧
    daysFromCivil (firstOfNextMonth (y : Int) (getMonthIndex m).toNat) -
      daysFromCivil (firstOfMonth (y : Int) (getMonthIndex m).toNat) =
      (daysInMonth (y : Int) (getMonthIndex m).toNat : Int) := by
  have hb := getMonthIndex_bound m h4
  have hyi : (100 : Int) ≤ (y : Int) := by exact_mod_cast hy
  refine ⟨?_, monthLength (y : Int) (getMonthIndex m).toNat hyi (by omega)⟩
  have hne : (text == "") = false := beq_eq_false_iff_ne.mpr h0
  simp only [parseDateExpressions, hne, Bool.false_eq_true, if_false, h1, h2, h3]
  rw [if_pos h4]
  rw [mkDate_day1 (y : Int) (getMonthIndex m) hyi hb.1 hb.2]
  by_cases h11 : getMonthIndex m = 11
  · rw [h11]
    rw [show (11:Int) + 1 = 12 from rfl]
    rw [mkDate_day1_roll (y : Int) hyi]
    simp [firstOfMonth, firstOfNextMonth]
  · rw [mkDate_day1 (y : Int) (getMonthIndex m + 1) hyi (by omega) (by omega)]
    have ht : (getMonthIndex m + 1).toNat = (getMonthIndex m).toNat + 1 := by omega
    rw [ht]
    have hne11 : (getMonthIndex m).toNat ≠ 11 := by omega
    simp [firstOfMonth, firstOfNextMonth, hne11]

/-- Witness for C8 (amended) at the phrase "june 2025". -/
theorem c8_bare_month_year_witness :
    parseDateExpressions now0 "june 2025" =
      some ⟨toISODate (firstOfMonth ((2025 : Nat) : Int) (getMonthIndex "june").toNat),
            toISODate (firstOfNextMonth ((2025 : Nat) : Int) (getMonthIndex "june").toNat)⟩ ∧
    daysFromCivil (firstOfNextMonth ((2025 : Nat) : Int) (getMonthIndex "june").toNat) -
      daysFromCivil (firstOfMonth ((2025 : Nat) : Int) (getMonthIndex "june").toNat) =
      (daysInMonth ((2025 : Nat) : Int) (getMonthIndex "june").toNat : Int) :=
  c8_bare_month_year now0 "june 2025" "june" 2025 (by decide) (by decide) (by decide)
    (by decide) (by decide) (by decide)

theorem isDigitCh_ofNat (n : Nat) (h : n < 10) : isDigitCh (Char.ofNat (48 + n)) = true := by
  interval_cases n <;> decide

theorem digit_ne_dollar {c : Char} (h : isDigitCh c = true) : c ≠ '$' := by
  rintro rfl
  simp [isDigitCh] at h

theorem natToDigitsAux_digits (fuel : Nat) :
    ∀ (n : Nat) (acc : List Char), (∀ c ∈ acc, isDigitCh c = true) →
      ∀ c ∈ natToDigitsAux fuel n acc, isDigitCh c = true := by
  induction fuel with
  | zero => intro n acc hacc; exact hacc
  | succ fuel ih =>
    intro n acc hacc
    simp only [natToDigitsAux]
    split
    · intro c hc
      rcases List.mem_cons.mp hc with rfl | hc
      · exact isDigitCh_ofNat _ (by omega)
      · exact hacc c hc
    · refine ih _ _ ?_
      intro c hc
      rcases List.mem_cons.mp hc with rfl | hc
      · exact isDigitCh_ofNat _ (Nat.mod_lt _ (by norm_num))
      · exact hacc c hc

theorem natToDigits_digits (n : Nat) : ∀ c ∈ natToDigits n, isDigitCh c = true :=
  natToDigitsAux_digits _ _ [] (by simp)

theorem charVal_ofNat (n : Nat) (h : n < 10) : (Char.ofNat (48 + n)).toNat - 48 = n := by
  interval_cases n <;> decide

theorem natOfDigits_natToDigitsAux (fuel : Nat) :
    ∀ (n : Nat) (acc : List Char), n < fuel →
      natOfDigits (natToDigitsAux fuel n acc) =
        acc.foldl (fun a c => a * 10 + (c.toNat - 48)) n := by
  induction fuel with
  | zero => intro n acc h; omega
  | succ fuel ih =>
    intro n acc h
    simp only [natToDigitsAux]
    split
    · simp only [natOfDigits, List.foldl_cons]
      rw [charVal_ofNat _ (by omega)]
      norm_num
    · rename_i hn
      rw [ih (n / 10) _ (by omega)]
      simp only [List.foldl_cons]
      rw [charVal_ofNat _ (Nat.mod_lt _ (by norm_num))]
      congr 1
      omega

theorem natOfDigits_natToDigits (n : Nat) : natOfDigits (natToDigits n) = n := by
  rw [natToDigits, natOfDigits_natToDigitsAux (n + 1) n [] (by omega)]
  rfl

theorem takeWhile_append_eq (p : Char → Bool) (a b : List Char)
    (hb : ∀ c, b.head? = some c → p c = false) :
    (a ++ b).takeWhile p = a.takeWhile p := by
  induction a with
  | nil =>
    cases b with
    | nil => rfl
    | cons c cs => simp [List.takeWhile_cons, hb c rfl]
  | cons x a ih =>
    simp only [List.cons_append, List.takeWhile_cons]
    cases hx : p x
    · simp
    · simp [ih]

theorem dollarNums_append_nodollar (a b : List Char) (ha : '$' ∉ a) :
    dollarNums (a ++ b) = dollarNums b := by
  induction a with
  | nil => rfl
  | cons c a ih =>
    have hcf : (c == '$') = false :=
      beq_eq_false_iff_ne.mpr (fun h => ha (h ▸ List.mem_cons_self c a))
    simp only [List.cons_append, dollarNums, hcf, Bool.false_eq_true, if_false]
    exact ih (fun h => ha (List.mem_cons_of_mem _ h))

theorem dollarNums_nil_of_nodollar (a : List Char) (ha : '$' ∉ a) : dollarNums a = [] := by
  have h := dollarNums_append_nodollar a [] ha
  simpa using h

theorem dollarNums_append (a b : List Char)
    (hb : ∀ c, b.head? = some c → isDigitCh c = false) :
    dollarNums (a ++ b) = dollarNums a ++ dollarNums b := by
  induction a with
  | nil => simp [dollarNums]
  | cons c a ih =>
    simp only [List.cons_append, dollarNums, List.append_eq]
    cases hc : (c == '$')
    · simpa [hc] using ih
    · simp only [hc, if_true]
      rw [takeWhile_append_eq _ _ _ hb, ih]
      simp

theorem dollarNums_single (pre ds : List Char) (hpre : '$' ∉ pre)
    (hds : ∀ c ∈ ds, isDigitCh c = true) :
    dollarNums (pre ++ '$' :: ds) = [natOfDigits ds] := by
  rw [dollarNums_append_nodollar _ _ hpre]
  have hds' : dollarNums ds = [] :=
    dollarNums_nil_of_nodollar ds (fun hd => absurd rfl (digit_ne_dollar (hds '$' hd)))
  simp only [dollarNums, beq_self_eq_true, if_true]
  rw [List.takeWhile_eq_self_iff.mpr hds, hds']

theorem dollarNums_placeholder (pre : String) (idx : Nat) (hpre : '$' ∉ pre.data) :
    dollarNums (pre ++ "$" ++ natToString idx).data = [idx] := by
  rw [String.data_append, String.data_append]
  have h1 : pre.data ++ ("$" : String).data ++ (natToString idx).data =
      pre.data ++ '$' :: natToDigits idx := by simp [natToString]
  rw [h1, dollarNums_single pre.data _ hpre (natToDigits_digits idx),
    natOfDigits_natToDigits]

theorem dollarNums_dollar_digits (idx : Nat) :
    dollarNums ("$" ++ natToString idx).data = [idx] := by
  have h := dollarNums_placeholder "" idx (by decide)
  simpa using h

theorem dollarNums_inList (idx k : Nat) :
    dollarNums (joinSep ", "
      ((List.range' idx k).map (fun i => "$" ++ natToString i))).data =
      List.range' idx k := by
  induction k generalizing idx with
  | zero => rfl
  | succ k ih =>
    rw [List.range'_succ, List.map_cons]
    cases hrest : (List.range' (idx + 1) k).map (fun i => "$" ++ natToString i) with
    | nil =>
      have hk : k = 0 := by
        have := congrArg List.length hrest
        simpa using this
      subst hk
      simp only [joinSep, List.range'_zero]
      rw [dollarNums_dollar_digits]
    | cons y t =>
      simp only [joinSep]
      rw [String.append_assoc, String.data_append]
      have hcomma : ∀ c, ((", " ++ joinSep ", " (y :: t)) : String).data.head? = some c →
          isDigitCh c = false := by
        intro c h
        rw [String.data_append] at h
        have : ((", " : String).data ++ (joinSep ", " (y :: t)).data).head? = some ',' := rfl
        rw [this] at h
        cases h
        decide
      rw [dollarNums_append _ _ hcomma, dollarNums_dollar_digits, String.data_append,
        dollarNums_append_nodollar _ _ (by decide), ← hrest, ih]
      rfl

theorem nodollar_append {a b : String} (ha : '$' ∉ a.data) (hb : '$' ∉ b.data) :
    '$' ∉ (a ++ b).data := by
  rw [String.data_append]
  intro h
  rcases List.mem_append.mp h with h | h
  · exact ha h
  · exact hb h

theorem nodollar_join {sep : String} {l : List String} (hsep : '$' ∉ sep.data)
    (hl : ∀ s ∈ l, '$' ∉ s.data) : '$' ∉ (joinSep sep l).data := by
  induction l with
  | nil => exact (by decide : '$' ∉ ("" : String).data)
  | cons s rest ih =>
    cases rest with
    | nil => exact hl s (List.mem_cons_self s [])
    | cons y t =>
      simp only [joinSep]
      exact nodollar_append (nodollar_append (hl s (List.mem_cons_self s (y :: t))) hsep)
        (ih (fun x hx => hl x (List.mem_cons_of_mem _ hx)))

theorem nodollar_natToString (n : Nat) : '$' ∉ (natToString n).data := by
  intro h
  exact absurd rfl (digit_ne_dollar (natToDigits_digits n '$' h))

theorem nodollar_getTableAlias (pt : String) : '$' ∉ (getTableAlias pt).data := by
  unfold getTableAlias
  split_ifs <;> decide

theorem qualifyColumn_nodollar {am : AliasMap} {pa col qc : String}
    (hpa : '$' ∉ pa.data) (hcol : '$' ∉ col.data)
    (hsta : ∀ a, am.stations = some a → '$' ∉ a.data)
    (hwea : ∀ a, am.dailyWeather = some a → '$' ∉ a.data)
    (h : qualifyColumn am pa col = some qc) : '$' ∉ qc.data := by
  unfold qualifyColumn at h
  split_ifs at h
  · cases hs : am.stations with
    | none => rw [hs] at h; cases h
    | some a =>
      rw [hs] at h
      injection h with h
      subst h
      exact nodollar_append (nodollar_append (hsta a hs) (by decide)) hcol
  · cases hs : am.dailyWeather with
    | none => rw [hs] at h; cases h
    | some a =>
      rw [hs] at h
      injection h with h
      subst h
      exact nodollar_append (nodollar_append (hwea a hs) (by decide)) hcol
  · injection h with h
    subst h
    exact nodollar_append (nodollar_append hpa (by decide)) hcol

theorem headND_of_head {s : String} {c0 : Char} (h : s.data.head? = some c0)
    (hc : isDigitCh c0 = false) : headND s := by
  intro c hc'
  rw [h] at hc'
  cases hc'
  exact hc

theorem renderFilter_spec (am : AliasMap) (pa : String) (f : Filter) (idx : Nat)
    (hcol : '$' ∉ f.column.data) (hop : '$' ∉ f.operator.data)
    (hpa : '$' ∉ pa.data)
    (hsta : ∀ a, am.stations = some a → '$' ∉ a.data)
    (hwea : ∀ a, am.dailyWeather = some a → '$' ∉ a.data) :
    dollarNums (renderFilter am pa f idx).1.data =
      List.range' idx (expectedParams am pa f).length ∧
    (renderFilter am pa f idx).2.1 = expectedParams am pa f ∧
    (renderFilter am pa f idx).2.2 = idx + (expectedParams am pa f).length := by
  unfold renderFilter expectedParams
  cases hq : qualifyColumn am pa f.column with
  | none =>
    simp only [List.length_nil, List.range'_zero]
    exact ⟨by decide, by simp, by simp⟩
  | some qc =>
    have hqc : '$' ∉ qc.data := qualifyColumn_nodollar hpa hcol hsta hwea hq
    simp only
    split_ifs with h1 h2 h3 h4
    · -- ILIKE
      refine ⟨?_, rfl, rfl⟩
      rw [show (" ILIKE $" : String) = " ILIKE " ++ "$" from rfl,
        ← String.append_assoc qc " ILIKE " "$"]
      rw [dollarNums_placeholder (qc ++ " ILIKE ") idx
        (nodollar_append hqc (by decide))]
      simp [List.range'_one]
    · -- IN
      refine ⟨?_, rfl, by simp⟩
      rw [String.data_append]
      have hpar : ∀ c, ((")" : String).data).head? = some c → isDigitCh c = false := by
        intro c h
        have hx : (((")" : String).data).head? = some ')') := rfl
        rw [hx] at h
        cases h
        decide
      rw [dollarNums_append _ _ hpar, String.data_append,
        dollarNums_append_nodollar _ _ (nodollar_append hqc (by decide)),
        dollarNums_inList, show dollarNums (((")" : String).data)) = [] from by decide]
      simp
    · -- WEEKEND
      refine ⟨?_, rfl, by simp⟩
      rw [dollarNums_nil_of_nodollar _
        (nodollar_append (nodollar_append (by decide) hqc) (by decide))]
      simp [List.range'_zero]
    · -- WEEKDAY
      refine ⟨?_, rfl, by simp⟩
      rw [dollarNums_nil_of_nodollar _
        (nodollar_append (nodollar_append (by decide) hqc) (by decide))]
      simp [List.range'_zero]
    · -- generic comparison
      refine ⟨?_, rfl, rfl⟩
      rw [show (" $" : String) = " " ++ "$" from rfl,
        ← String.append_assoc (qc ++ " " ++ f.operator) " " "$"]
      rw [dollarNums_placeholder (qc ++ " " ++ f.operator ++ " ") idx
        (nodollar_append (nodollar_append (nodollar_append hqc (by decide)) hop) (by decide))]
      simp [List.range'_one]

theorem renderWhereFilters_length (am : AliasMap) (pa : String) :
    ∀ (fs : List Filter) (idx : Nat),
      (renderWhereFilters am pa fs idx).1.length = fs.length := by
  intro fs
  induction fs with
  | nil => intro idx; rfl
  | cons f fs ih =>
    intro idx
    simp only [renderWhereFilters, List.length_cons]
    rw [ih]

theorem renderWhereFilters_spec (am : AliasMap) (pa : String)
    (hpa : '$' ∉ pa.data)
    (hsta : ∀ a, am.stations = some a → '$' ∉ a.data)
    (hwea : ∀ a, am.dailyWeather = some a → '$' ∉ a.data) :
    ∀ (fs : List Filter) (idx : Nat),
      (∀ f ∈ fs, '$' ∉ f.column.data ∧ '$' ∉ f.operator.data) →
      dollarNums (joinSep " AND " (renderWhereFilters am pa fs idx).1).data =
        List.range' idx (fs.flatMap (expectedParams am pa)).length ∧
      (renderWhereFilters am pa fs idx).2 = fs.flatMap (expectedParams am pa) := by
  intro fs
  induction fs with
  | nil =>
    intro idx _
    simp only [List.flatMap_nil, List.length_nil, List.range'_zero]
    exact ⟨rfl, rfl⟩
  | cons f fs ih =>
    intro idx hf
    have hff := hf f (List.mem_cons_self f fs)
    have hr := renderFilter_spec am pa f idx hff.1 hff.2 hpa hsta hwea
    have hrest := ih (renderFilter am pa f idx).2.2
      (fun x hx => hf x (List.mem_cons_of_mem _ hx))
    have hstep : renderWhereFilters am pa (f :: fs) idx =
        ((renderFilter am pa f idx).1 ::
          (renderWhereFilters am pa fs (renderFilter am pa f idx).2.2).1,
         (renderFilter am pa f idx).2.1 ++
          (renderWhereFilters am pa fs (renderFilter am pa f idx).2.2).2) := rfl
    rw [hstep]
    cases fs with
    | nil =>
      constructor
      · simp only [renderWhereFilters, joinSep, List.flatMap_cons, List.flatMap_nil,
          List.append_nil]
        exact hr.1
      · simp only [renderWhereFilters, List.flatMap_cons, List.flatMap_nil, List.append_nil]
        exact hr.2.1
    | cons g gs =>
      constructor
      · have hcons : (renderWhereFilters am pa (g :: gs) (renderFilter am pa f idx).2.2).1 =
            (renderFilter am pa g (renderFilter am pa f idx).2.2).1 ::
              (renderWhereFilters am pa gs
                (renderFilter am pa g (renderFilter am pa f idx).2.2).2.2).1 := rfl
        rw [hcons]
        simp only [joinSep]
        rw [← hcons]
        rw [String.append_assoc, String.data_append]
        have hsp : ∀ c,
            ((" AND " ++ joinSep " AND "
              (renderWhereFilters am pa (g :: gs) (renderFilter am pa f idx).2.2).1 :
                String)).data.head? = some c → isDigitCh c = false := by
          intro c h
          rw [String.data_append] at h
          have hx : (((" AND " : String)).data ++
              (joinSep " AND "
                (renderWhereFilters am pa (g :: gs) (renderFilter am pa f idx).2.2).1).data).head? =
              some ' ' := rfl
          rw [hx] at h
          cases h
          decide
        rw [dollarNums_append _ _ hsp, hr.1, String.data_append,
          dollarNums_append_nodollar _ _ (by decide), hrest.1, hr.2.2]
        have hra := List.range'_append idx (expectedParams am pa f).length
          ((g :: gs).flatMap (expectedParams am pa)).length 1
        simp only [one_mul] at hra
        rw [hra, Nat.add_comm]
        congr 1
        simp [List.flatMap_cons, List.length_append, Nat.add_assoc]
      · rw [List.flatMap_cons, hr.2.1, hrest.2]

theorem whereClauseOf_spec (am : AliasMap) (pa : String) (wfs : List Filter)
    (hpa : '$' ∉ pa.data)
    (hsta : ∀ a, am.stations = some a → '$' ∉ a.data)
    (hwea : ∀ a, am.dailyWeather = some a → '$' ∉ a.data)
    (hf : ∀ f ∈ wfs, '$' ∉ f.column.data ∧ '$' ∉ f.operator.data) :
    dollarNums (whereClauseOf am pa wfs).1.data =
      List.range' 1 (wfs.flatMap (expectedParams am pa)).length ∧
    (whereClauseOf am pa wfs).2 = wfs.flatMap (expectedParams am pa) := by
  cases wfs with
  | nil =>
    simp only [List.flatMap_nil, List.length_nil, List.range'_zero]
    exact ⟨rfl, rfl⟩
  | cons f fs =>
    have h := renderWhereFilters_spec am pa hpa hsta hwea (f :: fs) 1 hf
    unfold whereClauseOf
    constructor
    · rw [String.data_append, dollarNums_append_nodollar _ _ (by decide), h.1]
    · exact h.2

theorem nodollar_mem_nil : ∀ j ∈ ([] : List String), '$' ∉ j.data := by
  intro j hj
  exact absurd hj (List.not_mem_nil j)

theorem nodollar_mem_singleton {e : String} (he : '$' ∉ e.data) :
    ∀ j ∈ [e], '$' ∉ j.data := by
  intro j hj
  rw [List.mem_singleton] at hj
  subst hj
  exact he

theorem nodollar_mem_append {l1 l2 : List String}
    (h1 : ∀ j ∈ l1, '$' ∉ j.data) (h2 : ∀ j ∈ l2, '$' ∉ j.data) :
    ∀ j ∈ l1 ++ l2, '$' ∉ j.data := by
  intro j hj
  rcases List.mem_append.mp hj with hj | hj
  · exact h1 j hj
  · exact h2 j hj

theorem alias_nodollar {o : Option String} {v : String} (h : o = none ∨ o = some v)
    (hv : '$' ∉ v.data) : ∀ a, o = some a → '$' ∉ a.data := by
  intro a ha
  rcases h with h | h
  · rw [h] at ha; cases ha
  · rw [h] at ha; injection ha with ha; subst ha; exact hv

theorem cleanJoinState_stageStations (pa tl : String) (fs : List Filter) (st : JoinState)
    (hpa : '$' ∉ pa.data) (h : cleanJoinState st) :
    cleanJoinState (stageStations pa tl fs st) := by
  unfold stageStations
  split
  · exact ⟨nodollar_mem_append h.1 (nodollar_mem_singleton
      (nodollar_append (nodollar_append (by decide) hpa) (by decide))),
      Or.inr rfl, h.2.2.1, h.2.2.2⟩
  · exact h

theorem cleanJoinState_stageEndStations (pa tl : String) (st : JoinState)
    (hpa : '$' ∉ pa.data) (h : cleanJoinState st) :
    cleanJoinState (stageEndStations pa tl st) := by
  unfold stageEndStations
  split
  · exact ⟨nodollar_mem_append h.1 (nodollar_mem_singleton
      (nodollar_append (nodollar_append (by decide) hpa) (by decide))),
      h.2.1, Or.inr rfl, h.2.2.2⟩
  · exact h

theorem cleanJoinState_stageWeather (pa tl : String) (fs : List Filter)
    (llm : LLMAnalysis) (st : JoinState)
    (hpa : '$' ∉ pa.data) (h : cleanJoinState st) :
    cleanJoinState (stageWeather pa tl fs llm st) := by
  unfold stageWeather
  split
  · exact ⟨nodollar_mem_append h.1 (nodollar_mem_singleton
      (nodollar_append (nodollar_append (by decide) hpa) (by decide))),
      h.2.1, h.2.2.1, Or.inr rfl⟩
  · exact h

theorem cleanJoinState_stageBikes (pt pa tl : String) (st : JoinState)
    (hpa : '$' ∉ pa.data) (h : cleanJoinState st) :
    cleanJoinState (stageBikes pt pa tl st) := by
  unfold stageBikes
  split
  · exact ⟨nodollar_mem_append h.1 (nodollar_mem_singleton
      (nodollar_append (nodollar_append (by decide) hpa) (by decide))),
      Or.inr rfl, h.2.2.1, h.2.2.2⟩
  · exact h

theorem foldDims_inv (pa : String) (hpa : '$' ∉ pa.data) (dims : List String) :
    ∀ st : JoinState, cleanJoinState st →
      cleanJoinState (dims.foldl (dimJoinStep pa) st) := by
  induction dims with
  | nil => intro st h; exact h
  | cons d ds ih =>
    intro st h
    rw [List.foldl_cons]
    apply ih
    unfold dimJoinStep
    split
    · exact ⟨nodollar_mem_append h.1
        (nodollar_mem_singleton (nodollar_append (nodollar_append (by decide) hpa) (by decide))),
        h.2.1, Or.inr rfl, h.2.2.2⟩
    · exact h

theorem buildJoins_inv (pt pa tl : String) (fs : List Filter) (llm : LLMAnalysis)
    (hpa : '$' ∉ pa.data) : cleanJoinState (buildJoins pt pa tl fs llm) := by
  have h0 : cleanJoinState ⟨[], [pa], ⟨none, none, none⟩⟩ :=
    ⟨nodollar_mem_nil, Or.inl rfl, Or.inl rfl, Or.inl rfl⟩
  have h1 : cleanJoinState (if pt == "trips" then
      stageWeather pa tl fs llm
        (stageEndStations pa tl (stageStations pa tl fs ⟨[], [pa], ⟨none, none, none⟩⟩))
    else ⟨[], [pa], ⟨none, none, none⟩⟩) := by
    split
    · exact cleanJoinState_stageWeather pa tl fs llm _ hpa
        (cleanJoinState_stageEndStations pa tl _ hpa
          (cleanJoinState_stageStations pa tl fs _ hpa h0))
    · exact h0
  have h2 := cleanJoinState_stageBikes pt pa tl _ hpa h1
  unfold buildJoins
  dsimp only
  split
  · exact foldDims_inv pa hpa _ _ h2
  · exact h2

theorem nodollar_getD {o : Option String} {d : String} (h : o = none ∨ o = some d)
    (hd : '$' ∉ d.data) : '$' ∉ (o.getD d).data := by
  rcases h with h | h <;> rw [h] <;> simpa

theorem nodollar_sDrop {s : String} (n : Nat) (h : '$' ∉ s.data) :
    '$' ∉ (sDrop s n).data := by
  intro hm
  exact h (List.mem_of_mem_drop hm)

theorem strHead_append {a b : String} {x : Char} (h : a.data.head? = some x) :
    (a ++ b).data.head? = some x := by
  rw [String.data_append, List.head?_append, h]
  rfl

theorem headND_empty : headND "" := by
  intro c h
  simp at h

theorem headND_data_append {a b : List Char}
    (ha : ∀ c, a.head? = some c → isDigitCh c = false)
    (hb : ∀ c, b.head? = some c → isDigitCh c = false) :
    ∀ c, (a ++ b).head? = some c → isDigitCh c = false := by
  intro c h
  cases a with
  | nil =>
    rw [List.nil_append] at h
    exact hb c h
  | cons x xs =>
    rw [List.cons_append, List.head?_cons] at h
    cases h
    exact ha _ rfl

theorem renderAggRanking_nodollar (pa : String) (agg : Aggregation)
    (hpa : '$' ∉ pa.data)
    (ha : '$' ∉ agg.function.data ∧ '$' ∉ agg.column.data ∧ '$' ∉ agg.aliasName.data) :
    '$' ∉ (renderAggRanking pa agg).data := by
  unfold renderAggRanking
  split_ifs <;>
    repeat' first
      | apply nodollar_append
      | exact hpa
      | exact ha.1
      | exact ha.2.1
      | exact ha.2.2
      | decide

theorem renderAggScalar_nodollar (pa : String) (cols : List Column) (agg : Aggregation)
    (hpa : '$' ∉ pa.data)
    (ha : '$' ∉ agg.function.data ∧ '$' ∉ agg.column.data ∧ '$' ∉ agg.aliasName.data) :
    '$' ∉ (renderAggScalar pa cols agg).data := by
  unfold renderAggScalar
  split_ifs <;>
    repeat' first
      | apply nodollar_append
      | exact hpa
      | exact ha.1
      | exact ha.2.1
      | exact ha.2.2
      | decide

theorem selectClauseBase_nodollar (tl pt pa : String) (cols : List Column)
    (aggs : List Aggregation) (hpa : '$' ∉ pa.data)
    (hcols : ∀ c ∈ cols, '$' ∉ c.columnName.data)
    (haggs : ∀ a ∈ aggs,
      '$' ∉ a.function.data ∧ '$' ∉ a.column.data ∧ '$' ∉ a.aliasName.data) :
    '$' ∉ (selectClauseBase tl pt pa cols aggs).data := by
  unfold selectClauseBase
  split_ifs
  · decide
  · decide
  · decide
  all_goals cases aggs with
  | nil =>
    dsimp only
    split
    · exact nodollar_append (nodollar_append (by decide) hpa) (by decide)
    · apply nodollar_append (by decide)
      apply nodollar_join (by decide)
      intro s hs
      rw [List.mem_map] at hs
      obtain ⟨col, hcol, rfl⟩ := hs
      exact nodollar_append (nodollar_append hpa (by decide))
        (hcols col (List.mem_of_mem_filter (List.mem_of_mem_take hcol)))
  | cons a as =>
    first
      | exact nodollar_append (by decide)
          (renderAggScalar_nodollar pa cols a hpa (haggs a (List.mem_cons_self a as)))
      | (apply nodollar_append (by decide)
         apply nodollar_join (by decide)
         intro s hs
         rw [List.mem_map] at hs
         obtain ⟨agg, hagg, rfl⟩ := hs
         exact renderAggRanking_nodollar pa agg hpa (haggs agg hagg))

theorem selectClauseOf_nodollar (tl pt pa : String) (cols : List Column)
    (aggs : List Aggregation) (fils : List Filter) (am : AliasMap)
    (hpa : '$' ∉ pa.data)
    (hcols : ∀ c ∈ cols, '$' ∉ c.columnName.data)
    (haggs : ∀ a ∈ aggs,
      '$' ∉ a.function.data ∧ '$' ∉ a.column.data ∧ '$' ∉ a.aliasName.data) :
    '$' ∉ (selectClauseOf tl pt pa cols aggs fils am).data := by
  unfold selectClauseOf
  split
  · exact nodollar_append (by decide)
      (nodollar_sDrop 7 (selectClauseBase_nodollar tl pt pa cols aggs hpa hcols haggs))
  · exact selectClauseBase_nodollar tl pt pa cols aggs hpa hcols haggs

theorem groupColStep_fold_nodollar (am : AliasMap) (pa pt : String)
    (hpa : '$' ∉ pa.data) (hs : am.stations = none ∨ am.stations = some "s") :
    ∀ (gfs : List Filter) (acc : List String), (∀ s ∈ acc, '$' ∉ s.data) →
      ∀ s ∈ gfs.foldl (groupColStep am pa pt) acc, '$' ∉ s.data := by
  intro gfs
  induction gfs with
  | nil => intro acc hacc; exact hacc
  | cons f fs ih =>
    intro acc hacc
    rw [List.foldl_cons]
    apply ih
    unfold groupColStep
    split_ifs
    · exact nodollar_mem_append hacc (nodollar_mem_singleton
        (nodollar_append (nodollar_getD hs (by decide)) (by decide)))
    · exact nodollar_mem_append hacc (nodollar_mem_singleton
        (nodollar_append (nodollar_append (by decide) hpa) (by decide)))
    · exact nodollar_mem_append hacc (nodollar_mem_singleton
        (nodollar_append hpa (by decide)))
    · exact nodollar_mem_append hacc (nodollar_mem_singleton
        (nodollar_append hpa (by decide)))
    · exact hacc

theorem llmDimColStep_fold_nodollar (am : AliasMap) (pa : String)
    (hpa : '$' ∉ pa.data)
    (hs : am.stations = none ∨ am.stations = some "s")
    (he : am.endStations = none ∨ am.endStations = some "s2") :
    ∀ (dims : List String) (acc : List String), (∀ s ∈ acc, '$' ∉ s.data) →
      ∀ s ∈ dims.foldl (llmDimColStep am pa) acc, '$' ∉ s.data := by
  intro dims
  induction dims with
  | nil => intro acc hacc; exact hacc
  | cons d ds ih =>
    intro acc hacc
    rw [List.foldl_cons]
    apply ih
    unfold llmDimColStep
    split_ifs
    · exact nodollar_mem_append hacc (nodollar_mem_singleton
        (nodollar_append (nodollar_getD he (by decide)) (by decide)))
    · split
      · rename_i a ha
        exact nodollar_mem_append hacc (nodollar_mem_singleton
          (nodollar_append (alias_nodollar hs (by decide) a ha) (by decide)))
      · exact hacc
    · exact nodollar_mem_append hacc (nodollar_mem_singleton
        (nodollar_append hpa (by decide)))
    · exact nodollar_mem_append hacc (nodollar_mem_singleton
        (nodollar_append (nodollar_append (by decide) hpa) (by decide)))
    · exact nodollar_mem_append hacc (nodollar_mem_singleton
        (nodollar_append (nodollar_append (by decide) hpa) (by decide)))
    · exact hacc

theorem groupByClauseBase_nodollar (tl pt pa : String) (cols : List Column)
    (aggs : List Aggregation) (fils : List Filter) (am : AliasMap)
    (hpa : '$' ∉ pa.data)
    (hcols : ∀ c ∈ cols, '$' ∉ c.columnName.data)
    (hs : am.stations = none ∨ am.stations = some "s") :
    '$' ∉ (groupByClauseBase tl pt pa cols aggs fils am).data := by
  unfold groupByClauseBase
  dsimp only
  cases hgf : List.filter (fun f => sStartsWith f.column "group_by_") fils with
  | cons f0 rest =>
    simp only [hgf]
    cases hgc : groupColsFromDims (f0 :: rest) am pa pt with
    | nil => simp only [hgc]; decide
    | cons g0 grest =>
      simp only [hgc]
      apply nodollar_append (by decide)
      apply nodollar_join (by decide)
      intro s hs'
      rw [← hgc] at hs'
      exact groupColStep_fold_nodollar am pa pt hpa hs _ [] nodollar_mem_nil s hs'
  | nil =>
    simp only [hgf]
    cases aggs with
    | nil => exact (by decide : '$' ∉ ("" : String).data)
    | cons a0 arest =>
      dsimp only
      split_ifs
      · exact nodollar_append (nodollar_append (by decide) (nodollar_getD hs (by decide)))
          (by decide)
      · split
        · rename_i a ha
          exact nodollar_append (nodollar_append (by decide)
            (alias_nodollar hs (by decide) a ha)) (by decide)
        · exact (by decide : '$' ∉ ("" : String).data)
      · cases hmap : List.map (fun col => pa ++ "." ++ col.columnName) (List.take 1 cols) with
        | nil =>
          simp only [hmap]
          exact (by decide : '$' ∉ ("" : String).data)
        | cons g0 grest =>
          simp only [hmap]
          apply nodollar_append (by decide)
          apply nodollar_join (by decide)
          intro s hs'
          rw [← hmap] at hs'
          rw [List.mem_map] at hs'
          obtain ⟨col, hcol, rfl⟩ := hs'
          exact nodollar_append (nodollar_append hpa (by decide))
            (hcols col (List.mem_of_mem_take hcol))
      · exact (by decide : '$' ∉ ("" : String).data)

theorem groupByClauseOf_nodollar (tl pt pa : String) (cols : List Column)
    (aggs : List Aggregation) (fils : List Filter) (am : AliasMap) (llm : LLMAnalysis)
    (hpa : '$' ∉ pa.data)
    (hcols : ∀ c ∈ cols, '$' ∉ c.columnName.data)
    (hs : am.stations = none ∨ am.stations = some "s")
    (he : am.endStations = none ∨ am.endStations = some "s2") :
    '$' ∉ (groupByClauseOf tl pt pa cols aggs fils am llm).data := by
  unfold groupByClauseOf
  dsimp only
  split
  · cases hgc : groupColsFromLLMDims llm.groupingDimensions am pa with
    | nil =>
      simp only [hgc]
      exact groupByClauseBase_nodollar tl pt pa cols aggs fils am hpa hcols hs
    | cons g0 grest =>
      simp only [hgc]
      apply nodollar_append (by decide)
      apply nodollar_join (by decide)
      intro s hs'
      rw [← hgc] at hs'
      exact llmDimColStep_fold_nodollar am pa hpa hs he _ [] nodollar_mem_nil s hs'
  · exact groupByClauseBase_nodollar tl pt pa cols aggs fils am hpa hcols hs

theorem orderByClauseOf_nodollar (tl : String) (aggs : List Aggregation)
    (haggs : ∀ a ∈ aggs,
      '$' ∉ a.function.data ∧ '$' ∉ a.column.data ∧ '$' ∉ a.aliasName.data) :
    '$' ∉ (orderByClauseOf tl aggs).data := by
  unfold orderByClauseOf
  cases aggs with
  | nil => exact (by decide : '$' ∉ ("" : String).data)
  | cons firstAgg rest =>
    dsimp only
    split_ifs <;>
      first
        | exact (by decide : '$' ∉ ("" : String).data)
        | decide
        | exact nodollar_append (nodollar_append (by decide)
            (haggs firstAgg (List.mem_cons_self firstAgg rest)).2.2) (by decide)

theorem limitClauseOf_nodollar (tl : String) : '$' ∉ (limitClauseOf tl).data := by
  unfold limitClauseOf
  split
  · exact nodollar_append (by decide) (nodollar_natToString _)
  · split_ifs
    · decide
    · decide

theorem groupByClauseOf_headND (tl pt pa : String) (cols : List Column)
    (aggs : List Aggregation) (fils : List Filter) (am : AliasMap) (llm : LLMAnalysis) :
    headND (groupByClauseOf tl pt pa cols aggs fils am llm) := by
  unfold groupByClauseOf groupByClauseBase
  dsimp only
  repeat' first
    | exact headND_empty
    | exact headND_of_head rfl (by decide)
    | exact headND_of_head (strHead_append rfl) (by decide)
    | exact headND_of_head (strHead_append (strHead_append rfl)) (by decide)
    | split

theorem orderByClauseOf_headND (tl : String) (aggs : List Aggregation) :
    headND (orderByClauseOf tl aggs) := by
  unfold orderByClauseOf
  repeat' first
    | exact headND_empty
    | exact headND_of_head rfl (by decide)
    | exact headND_of_head (strHead_append rfl) (by decide)
    | exact headND_of_head (strHead_append (strHead_append rfl)) (by decide)
    | split

theorem limitClauseOf_headND (tl : String) : headND (limitClauseOf tl) := by
  unfold limitClauseOf
  repeat' first
    | exact headND_empty
    | exact headND_of_head rfl (by decide)
    | exact headND_of_head (strHead_append rfl) (by decide)
    | split

theorem nodollar_data_append {a b : List Char} (ha : '$' ∉ a) (hb : '$' ∉ b) :
    '$' ∉ a ++ b := by
  intro h
  rcases List.mem_append.mp h with h | h
  · exact ha h
  · exact hb h

/-- C9: for every generated plan (over inputs whose column names,
operators, aggregation fields and table name contain no `'$'`
character — true of everything the assemblers produce), the positional
placeholders appearing in the query text are exactly `$1, $2, …` up to
the number of bound parameters, in text order; the bound parameter list
is exactly one value per rendered non-flag comparison and one per
`IN`-list element, in emission order; and a `WEEKEND` or `WEEKDAY`
filter renders a placeholder-free condition and binds no parameter. -/
theorem c9_positional_params (primaryTable userText : String)
    (tables : List TableMapping) (columns : List Column)
    (aggregations : List Aggregation) (filters : List Filter) (llm : LLMAnalysis)
    (hpt : '$' ∉ primaryTable.data)
    (hfil : ∀ f ∈ filters, '$' ∉ f.column.data ∧ '$' ∉ f.operator.data)
    (haggs : ∀ a ∈ aggregations,
      '$' ∉ a.function.data ∧ '$' ∉ a.column.data ∧ '$' ∉ a.aliasName.data)
    (hcols : ∀ c ∈ columns, '$' ∉ c.columnName.data) :
    dollarNums (buildSQLQuery primaryTable tables columns aggregations filters
        userText llm).sql.data =
      List.range' 1 (buildSQLQuery primaryTable tables columns aggregations filters
        userText llm).params.length ∧
    (buildSQLQuery primaryTable tables columns aggregations filters userText llm).params =
      (filters.filter (fun f => !(sStartsWith f.column "group_by_"))).flatMap
        (expectedParams (buildJoins primaryTable (getTableAlias primaryTable)
          (jsLower userText) filters llm).aliasMap (getTableAlias primaryTable)) ∧
    (∀ f ∈ filters, (f.operator = "WEEKEND" ∨ f.operator = "WEEKDAY") →
      expectedParams (buildJoins primaryTable (getTableAlias primaryTable)
        (jsLower userText) filters llm).aliasMap (getTableAlias primaryTable) f = [] ∧
      ∀ idx,
        '$' ∉ (renderFilter (buildJoins primaryTable (getTableAlias primaryTable)
          (jsLower userText) filters llm).aliasMap (getTableAlias primaryTable) f idx).1.data ∧
        (renderFilter (buildJoins primaryTable (getTableAlias primaryTable)
          (jsLower userText) filters llm).aliasMap (getTableAlias primaryTable) f idx).2.1 = [] ∧
        (renderFilter (buildJoins primaryTable (getTableAlias primaryTable)
          (jsLower userText) filters llm).aliasMap (getTableAlias primaryTable) f idx).2.2 = idx) := by
  have hpa := nodollar_getTableAlias primaryTable
  have hinv := buildJoins_inv primaryTable (getTableAlias primaryTable)
    (jsLower userText) filters llm hpa
  have hsta := alias_nodollar hinv.2.1 (by decide)
  have hwea := alias_nodollar hinv.2.2.2 (by decide)
  have hwfs : ∀ f ∈ filters.filter (fun f => !(sStartsWith f.column "group_by_")),
      '$' ∉ f.column.data ∧ '$' ∉ f.operator.data :=
    fun f hf => hfil f (List.mem_of_mem_filter hf)
  have hw := whereClauseOf_spec
    (buildJoins primaryTable (getTableAlias primaryTable) (jsLower userText) filters llm).aliasMap
    (getTableAlias primaryTable)
    (filters.filter (fun f => !(sStartsWith f.column "group_by_")))
    hpa hsta hwea hwfs
  refine ⟨?_, ?_, ?_⟩
  · unfold buildSQLQuery SQLParts.sql
    dsimp only
    simp only [String.data_append, List.append_assoc]
    rw [dollarNums_append_nodollar _ _
      (selectClauseOf_nodollar _ _ _ _ _ _ _ hpa hcols haggs)]
    rw [dollarNums_append_nodollar _ _ (by decide)]
    rw [dollarNums_append_nodollar _ _ hpt]
    rw [dollarNums_append_nodollar _ _ (by decide)]
    rw [dollarNums_append_nodollar _ _ hpa]
    rw [dollarNums_append_nodollar _ _ (nodollar_join (by decide) hinv.1)]
    rw [dollarNums_append _ _
      (headND_data_append (groupByClauseOf_headND _ _ _ _ _ _ _ _)
        (headND_data_append (orderByClauseOf_headND _ _) (limitClauseOf_headND _)))]
    rw [hw.1]
    rw [dollarNums_nil_of_nodollar _
      (nodollar_data_append
        (groupByClauseOf_nodollar _ _ _ _ _ _ _ _ hpa hcols hinv.2.1 hinv.2.2.1)
        (nodollar_data_append (orderByClauseOf_nodollar _ _ haggs)
          (limitClauseOf_nodollar _)))]
    rw [hw.2, List.append_nil]
  · unfold buildSQLQuery
    dsimp only
    exact hw.2
  · intro f hf hop
    have hcolf := (hfil f hf).1
    constructor
    · unfold expectedParams
      cases hq : qualifyColumn (buildJoins primaryTable (getTableAlias primaryTable)
          (jsLower userText) filters llm).aliasMap (getTableAlias primaryTable) f.column with
      | none => simp [hq]
      | some qc =>
        rcases hop with hop | hop <;> simp [hq, hop]
    · intro idx
      unfold renderFilter
      cases hq : qualifyColumn (buildJoins primaryTable (getTableAlias primaryTable)
          (jsLower userText) filters llm).aliasMap (getTableAlias primaryTable) f.column with
      | none =>
        simp only [hq]
        exact ⟨by decide, by simp, by simp⟩
      | some qc =>
        have hqc := qualifyColumn_nodollar hpa hcolf hsta hwea hq
        simp only [hq]
        rcases hop with hop | hop <;>
          rw [hop] <;>
          simp only [show (("WEEKEND" : String) == "ILIKE") = false from rfl,
            show (("WEEKEND" : String) == "IN") = false from rfl,
            show (("WEEKEND" : String) == "WEEKEND") = true from rfl,
            show (("WEEKDAY" : String) == "ILIKE") = false from rfl,
            show (("WEEKDAY" : String) == "IN") = false from rfl,
            show (("WEEKDAY" : String) == "WEEKEND") = false from rfl,
            show (("WEEKDAY" : String) == "WEEKDAY") = true from rfl,
            Bool.false_eq_true, if_false, if_true] <;>
          exact ⟨nodollar_append (nodollar_append (by decide) hqc) (by decide), by simp, by simp⟩

/-- Witness for C9 at the T-3 women/rainy-days plan: four filters bind
four parameters `$1`–`$4`. -/
theorem c9_positional_params_witness :
    dollarNums (buildSQLQuery "trips" []
      [⟨"trips", "trip_distance_km", "numeric", 200⟩,
       ⟨"trips", "started_at", "timestamp without time zone", 40⟩]
      [⟨"SUM", "trip_distance_km", "total_kilometres"⟩]
      [⟨"started_at", ">=", FilterValue.str "2025-06-01"⟩,
       ⟨"started_at", "<", FilterValue.str "2025-07-01"⟩,
       ⟨"rider_gender", "=", FilterValue.str "female"⟩,
       ⟨"precipitation_mm", ">", FilterValue.int 0⟩]
      "How many kilometres were ridden by women on rainy days in June 2025?"
      fallbackLLM).sql.data =
      List.range' 1 (buildSQLQuery "trips" []
        [⟨"trips", "trip_distance_km", "numeric", 200⟩,
         ⟨"trips", "started_at", "timestamp without time zone", 40⟩]
        [⟨"SUM", "trip_distance_km", "total_kilometres"⟩]
        [⟨"started_at", ">=", FilterValue.str "2025-06-01"⟩,
         ⟨"started_at", "<", FilterValue.str "2025-07-01"⟩,
         ⟨"rider_gender", "=", FilterValue.str "female"⟩,
         ⟨"precipitation_mm", ">", FilterValue.int 0⟩]
        "How many kilometres were ridden by women on rainy days in June 2025?"
        fallbackLLM).params.length ∧
    (buildSQLQuery "trips" []
      [⟨"trips", "trip_distance_km", "numeric", 200⟩,
       ⟨"trips", "started_at", "timestamp without time zone", 40⟩]
      [⟨"SUM", "trip_distance_km", "total_kilometres"⟩]
      [⟨"started_at", ">=", FilterValue.str "2025-06-01"⟩,
       ⟨"started_at", "<", FilterValue.str "2025-07-01"⟩,
       ⟨"rider_gender", "=", FilterValue.str "female"⟩,
       ⟨"precipitation_mm", ">", FilterValue.int 0⟩]
      "How many kilometres were ridden by women on rainy days in June 2025?"
      fallbackLLM).params =
      (([⟨"started_at", ">=", FilterValue.str "2025-06-01"⟩,
         ⟨"started_at", "<", FilterValue.str "2025-07-01"⟩,
         ⟨"rider_gender", "=", FilterValue.str "female"⟩,
         ⟨"precipitation_mm", ">", FilterValue.int 0⟩] : List Filter).filter
          (fun f => !(sStartsWith f.column "group_by_"))).flatMap
        (expectedParams (buildJoins "trips" (getTableAlias "trips")
          (jsLower "How many kilometres were ridden by women on rainy days in June 2025?")
          [⟨"started_at", ">=", FilterValue.str "2025-06-01"⟩,
           ⟨"started_at", "<", FilterValue.str "2025-07-01"⟩,
           ⟨"rider_gender", "=", FilterValue.str "female"⟩,
           ⟨"precipitation_mm", ">", FilterValue.int 0⟩] fallbackLLM).aliasMap
          (getTableAlias "trips")) := by
  have h := c9_positional_params "trips"
    "How many kilometres were ridden by women on rainy days in June 2025?" []
    [⟨"trips", "trip_distance_km", "numeric", 200⟩,
     ⟨"trips", "started_at", "timestamp without time zone", 40⟩]
    [⟨"SUM", "trip_distance_km", "total_kilometres"⟩]
    [⟨"started_at", ">=", FilterValue.str "2025-06-01"⟩,
     ⟨"started_at", "<", FilterValue.str "2025-07-01"⟩,
     ⟨"rider_gender", "=", FilterValue.str "female"⟩,
     ⟨"precipitation_mm", ">", FilterValue.int 0⟩]
    fallbackLLM (by decide) (by decide) (by decide) (by decide)
  exact ⟨h.1, h.2.1⟩

end BikeShare
